import Mathlib

set_option maxRecDepth 1000000
set_option maxHeartbeats 4000000

deriving instance DecidableEq for Except

/-!
Shallow embedding of the binary video-metadata parser of `src/lib/video-utils.ts`
(gifizer).  Byte buffers (`Uint8Array` / `File` contents) are modelled as
`List ℕ`; every access reduces the stored value mod 256, matching typed-array
storage.  JavaScript bitwise reads (`|`, `<<`) coerce to signed 32-bit
integers, modelled by `jsToInt32`.  The `while` loops of the walkers are
modelled with an explicit fuel parameter; `none` means the loop has not
finished within the given fuel (so a result that is `none` for every fuel is a
non-terminating loop).  Numbers that JavaScript holds as floats but that stay
rational on all paths used here (durations, frame rates, aspect ratios) are
modelled as `ℚ`.
-/

namespace Gifizer

/-- JavaScript `ToInt32`: interpret a natural number's low 32 bits as a signed
32-bit integer.  This is what a chain of `|`/`<<` produces in JS. -/
def jsToInt32 (n : ℕ) : ℤ :=
  if n % 4294967296 < 2147483648 then ((n % 4294967296 : ℕ) : ℤ)
  else ((n % 4294967296 : ℕ) : ℤ) - 4294967296

/-- `data[i]` on a `Uint8Array`: the stored byte (always < 256) in bounds,
and JS `undefined` (which coerces to 0 in arithmetic) out of bounds. -/
def byteAt (data : List ℕ) (i : ℤ) : ℕ :=
  if 0 ≤ i ∧ i < (data.length : ℤ) then data.getD i.toNat 0 % 256 else 0

/-- The unsigned big-endian 32-bit value assembled from 4 bytes. -/
def u32be (data : List ℕ) (i : ℤ) : ℕ :=
  byteAt data i * 16777216 + byteAt data (i + 1) * 65536 +
    byteAt data (i + 2) * 256 + byteAt data (i + 3)

/-- The unsigned little-endian 32-bit value assembled from 4 bytes. -/
def u32le (data : List ℕ) (i : ℤ) : ℕ :=
  byteAt data i + byteAt data (i + 1) * 256 +
    byteAt data (i + 2) * 65536 + byteAt data (i + 3) * 16777216

/-- `readUint32BE` of video-utils.ts:
`(data[o] << 24) | (data[o+1] << 16) | (data[o+2] << 8) | data[o+3]`.
The bitwise operators give a SIGNED 32-bit result in JS. -/
def readUint32BE (data : List ℕ) (i : ℤ) : ℤ := jsToInt32 (u32be data i)

/-- `readUint32LE` of video-utils.ts, likewise signed via JS bitwise ops. -/
def readUint32LE (data : List ℕ) (i : ℤ) : ℤ := jsToInt32 (u32le data i)

/-- Index resolution of `TypedArray.prototype.slice(start, end)`:
negative indices count from the end (clamped at 0), others clamp at length. -/
def jsSliceFrom (len : ℕ) (i : ℤ) : ℕ :=
  if i < 0 then ((len : ℤ) + i).toNat else min i.toNat len

/-- `data.slice(s, e)` on a typed array (also `File.slice` for our purposes). -/
def jsSlice (data : List ℕ) (s e : ℤ) : List ℕ :=
  (data.take (jsSliceFrom data.length e)).drop (jsSliceFrom data.length s)

/-- `readString` of video-utils.ts: `String.fromCharCode(...data.slice(o, o+len))`.
We keep the character codes as a list of byte values. -/
def readString (data : List ℕ) (offset len : ℤ) : List ℕ :=
  (jsSlice data offset (offset + len)).map (fun b => b % 256)

/-- JS `Math.round`: round half toward +∞, i.e. `⌊x + 1/2⌋`. -/
def jsRound (q : ℚ) : ℤ := ⌊q + 1 / 2⌋

/-- ASCII codes of the tag "moov". -/
def moovStr : List ℕ := [109, 111, 111, 118]
/-- ASCII codes of the tag "mvhd". -/
def mvhdStr : List ℕ := [109, 118, 104, 100]
/-- ASCII codes of the tag "trak". -/
def trakStr : List ℕ := [116, 114, 97, 107]
/-- ASCII codes of the tag "tkhd". -/
def tkhdStr : List ℕ := [116, 107, 104, 100]
/-- ASCII codes of the tag "RIFF". -/
def riffStr : List ℕ := [82, 73, 70, 70]
/-- ASCII codes of the tag "AVI " (with trailing space). -/
def aviStr : List ℕ := [65, 86, 73, 32]
/-- ASCII codes of the tag "LIST". -/
def listStr : List ℕ := [76, 73, 83, 84]
/-- ASCII codes of the tag "hdrl". -/
def hdrlStr : List ℕ := [104, 100, 114, 108]
/-- ASCII codes of the tag "avih". -/
def avihStr : List ℕ := [97, 118, 105, 104]

/-- The `VideoMetadata` record of video-utils.ts. -/
structure VideoMetadata where
  duration : ℚ
  width : ℤ
  height : ℤ
  aspectRatio : ℚ
  fileSize : ℕ
deriving DecidableEq

/-- Result record of `parseTrackAtom` (optional fields of the TS object). -/
structure TrackInfo where
  width : Option ℤ := none
  height : Option ℤ := none
deriving DecidableEq

/-- Result record of `parseMoovAtom` (optional fields of the TS object). -/
structure MoovInfo where
  duration : Option ℤ := none
  timescale : Option ℤ := none
  width : Option ℤ := none
  height : Option ℤ := none
deriving DecidableEq

/-- Result record of `parseAVIHeaderList` (optional fields of the TS object). -/
structure AVIHeaderInfo where
  width : Option ℤ := none
  height : Option ℤ := none
  frameRate : Option ℚ := none
  totalFrames : Option ℤ := none
deriving DecidableEq

/-- Accumulator of the local variables of `parseAVIMetadata`. -/
structure AVIAcc where
  width : ℤ
  height : ℤ
  frameRate : ℚ
  totalFrames : ℤ
deriving DecidableEq

/-- JS truthiness of an optional number (`undefined` and `0` are falsy). -/
def optTruthy : Option ℤ → Bool
  | none => false
  | some v => v != 0

/-- JS truthiness of an optional rational (`undefined` and `0` are falsy). -/
def optTruthyQ : Option ℚ → Bool
  | none => false
  | some v => v != 0

/-- The `while` loop of `parseTrackAtom` (video-utils.ts lines 417-451).
Breaks with the tkhd dimensions at the first `tkhd` box. -/
def parseTrackAtomGo (data : List ℕ) (endOffset : ℤ) : ℕ → ℤ → Option TrackInfo
  | 0, _ => none
  | fuel + 1, offset =>
    if offset < endOffset - 8 then
      let atomSize := readUint32BE data offset
      let atomType := readString data (offset + 4) 4
      if atomSize = 0 ∨ atomSize > endOffset - offset then some {}
      else if atomType = tkhdStr then
        let version := byteAt data (offset + 8)
        let dimensionOffset := offset + 12 + (if version = 1 then 32 else 20) + 36
        let widthFixed := readUint32BE data dimensionOffset
        let heightFixed := readUint32BE data (dimensionOffset + 4)
        some { width := some (jsRound ((widthFixed : ℚ) / 65536)),
               height := some (jsRound ((heightFixed : ℚ) / 65536)) }
      else parseTrackAtomGo data endOffset fuel (offset + atomSize)
    else some {}

/-- `parseTrackAtom(data, startOffset, size)` of video-utils.ts. -/
def parseTrackAtom (fuel : ℕ) (data : List ℕ) (startOffset size : ℤ) : Option TrackInfo :=
  parseTrackAtomGo data (startOffset + size) fuel startOffset

/-- The `while` loop of `parseMoovAtom` (video-utils.ts lines 354-397).
Accumulates mvhd timescale/duration and trak dimensions; note that each
qualifying `trak` OVERWRITES `result.width`/`result.height`. -/
def parseMoovAtomGo (data : List ℕ) (endOffset : ℤ) :
    ℕ → ℤ → MoovInfo → Option MoovInfo
  | 0, _, _ => none
  | fuel + 1, offset, res =>
    if offset < endOffset - 8 then
      let atomSize := readUint32BE data offset
      let atomType := readString data (offset + 4) 4
      if atomSize = 0 ∨ atomSize > endOffset - offset then some res
      else
        let res1 :=
          if atomType = mvhdStr then
            let version := byteAt data (offset + 8)
            if version = 1 then
              { res with timescale := some (readUint32BE data (offset + 28)),
                         duration := some (readUint32BE data (offset + 36)) }
            else
              { res with timescale := some (readUint32BE data (offset + 20)),
                         duration := some (readUint32BE data (offset + 24)) }
          else res
        if atomType = trakStr then
          match parseTrackAtom fuel data (offset + 8) (atomSize - 8) with
          | none => none
          | some td =>
            let res2 :=
              if optTruthy td.width && optTruthy td.height then
                { res1 with width := td.width, height := td.height }
              else res1
            parseMoovAtomGo data endOffset fuel (offset + atomSize) res2
        else parseMoovAtomGo data endOffset fuel (offset + atomSize) res1
    else some res

/-- `parseMoovAtom(data, startOffset, size)` of video-utils.ts. -/
def parseMoovAtom (fuel : ℕ) (data : List ℕ) (startOffset size : ℤ) : Option MoovInfo :=
  parseMoovAtomGo data (startOffset + size) fuel startOffset {}

/-- The top-level atom `while` loop of `tryParseMP4Chunk`
(video-utils.ts lines 272-299).  Breaks into `parseMoovAtom` at `moov`. -/
def tryParseMP4ChunkGo (data : List ℕ) : ℕ → ℤ → Option MoovInfo
  | 0, _ => none
  | fuel + 1, offset =>
    if offset < (data.length : ℤ) - 8 then
      let atomSize := readUint32BE data offset
      let atomType := readString data (offset + 4) 4
      if atomSize = 0 ∨ atomSize > (data.length : ℤ) - offset then some {}
      else if atomType = moovStr then
        parseMoovAtom fuel data (offset + 8)
          (min (atomSize - 8) ((data.length : ℤ) - offset - 8))
      else tryParseMP4ChunkGo data fuel (offset + atomSize)
    else some {}

/-- Whether a metadata record passes the completeness test used throughout
video-utils.ts: `duration > 0 && width > 0 && height > 0`. -/
def isCompleteMetadata (m : VideoMetadata) : Bool :=
  decide (0 < m.duration) && decide (0 < m.width) && decide (0 < m.height)

/-- The tail of `tryParseMP4Chunk` after the atom loop (video-utils.ts lines
291-319): merge the truthy moov fields into the local variables, convert
ticks to seconds guarded against a non-positive timescale, and build the
metadata record.  Factored out of `tryParseMP4Chunk` verbatim. -/
def mp4Post (mi : MoovInfo) (len : ℕ) : VideoMetadata :=
  let duration : ℤ := if optTruthy mi.duration then mi.duration.getD 0 else 0
  let timescale : ℤ := if optTruthy mi.timescale then mi.timescale.getD 0 else 0
  let width : ℤ := if optTruthy mi.width then mi.width.getD 0 else 0
  let height : ℤ := if optTruthy mi.height then mi.height.getD 0 else 0
  let durationQ : ℚ :=
    if 0 < duration ∧ 0 < timescale then (duration : ℚ) / (timescale : ℚ)
    else (duration : ℚ)
  { duration := durationQ, width := width, height := height,
    aspectRatio := if 0 < width ∧ 0 < height then (width : ℚ) / (height : ℚ) else 0,
    fileSize := len }

/-- `tryParseMP4Chunk(file, start, size)` of video-utils.ts: slice the window,
walk the atoms, then convert ticks to seconds guarded against zero timescale. -/
def tryParseMP4Chunk (fuel : ℕ) (file : List ℕ) (start size : ℤ) :
    Option VideoMetadata :=
  let data := jsSlice file start (start + size)
  match tryParseMP4ChunkGo data fuel 0 with
  | none => none
  | some mi => some (mp4Post mi file.length)

/-- `parseMP4Metadata(file)` of video-utils.ts (lines 218-252): head window,
then tail window, then the whole file if at most 10 MiB, stopping at the
first complete result, otherwise throwing (`Except.error ()`). -/
def parseMP4Metadata (fuel : ℕ) (file : List ℕ) : Option (Except Unit VideoMetadata) :=
  match tryParseMP4Chunk fuel file 0 (min 524288 (file.length : ℤ)) with
  | none => none
  | some r1 =>
    if isCompleteMetadata r1 then some (Except.ok r1)
    else
      let endChunkSize : ℤ := min 1048576 (file.length : ℤ)
      let endStart : ℤ := max 0 ((file.length : ℤ) - endChunkSize)
      match tryParseMP4Chunk fuel file endStart endChunkSize with
      | none => none
      | some r2 =>
        if isCompleteMetadata r2 then some (Except.ok r2)
        else if (file.length : ℤ) ≤ 10485760 then
          match tryParseMP4Chunk fuel file 0 (file.length : ℤ) with
          | none => none
          | some r3 =>
            if isCompleteMetadata r3 then some (Except.ok r3)
            else some (Except.error ())
        else some (Except.error ())

/-- The `while` loop of `parseAVIHeaderList` (video-utils.ts lines 180-204).
Reads the `avih` fields; skips one pad byte when `chunkSize % 2 === 1`
(JS `%` truncates toward zero, hence `Int.tmod`). -/
def parseAVIHeaderListGo (data : List ℕ) (endOffset : ℤ) :
    ℕ → ℤ → AVIHeaderInfo → Option AVIHeaderInfo
  | 0, _, _ => none
  | fuel + 1, offset, res =>
    if offset < endOffset - 8 then
      let chunkId := readString data offset 4
      let chunkSize := readUint32LE data (offset + 4)
      let res1 :=
        if chunkId = avihStr then
          let microSecPerFrame := readUint32LE data (offset + 8)
          { res with
            totalFrames := some (readUint32LE data (offset + 16)),
            width := some (readUint32LE data (offset + 32)),
            height := some (readUint32LE data (offset + 36)),
            frameRate :=
              if 0 < microSecPerFrame then some ((1000000 : ℚ) / (microSecPerFrame : ℚ))
              else res.frameRate }
        else res
      parseAVIHeaderListGo data endOffset fuel
        (offset + 8 + chunkSize + (if chunkSize.tmod 2 = 1 then 1 else 0)) res1
    else some res

/-- `parseAVIHeaderList(data, startOffset, size)` of video-utils.ts. -/
def parseAVIHeaderList (fuel : ℕ) (data : List ℕ) (startOffset size : ℤ) :
    Option AVIHeaderInfo :=
  parseAVIHeaderListGo data (startOffset + size) fuel startOffset {}

/-- Modelled from the spec: variant of the `parseAVIHeaderList` loop whose pad
rule follows the spec sentence "skip one extra pad byte after any chunk with
odd declared size" literally, i.e. padding also after chunks whose (signed)
declared size is negative and odd.  Used to compare the spec's padding rule
with the code's `chunkSize % 2 === 1`. -/
def parseAVIHeaderListGoOddPad (data : List ℕ) (endOffset : ℤ) :
    ℕ → ℤ → AVIHeaderInfo → Option AVIHeaderInfo
  | 0, _, _ => none
  | fuel + 1, offset, res =>
    if offset < endOffset - 8 then
      let chunkId := readString data offset 4
      let chunkSize := readUint32LE data (offset + 4)
      let res1 :=
        if chunkId = avihStr then
          let microSecPerFrame := readUint32LE data (offset + 8)
          { res with
            totalFrames := some (readUint32LE data (offset + 16)),
            width := some (readUint32LE data (offset + 32)),
            height := some (readUint32LE data (offset + 36)),
            frameRate :=
              if 0 < microSecPerFrame then some ((1000000 : ℚ) / (microSecPerFrame : ℚ))
              else res.frameRate }
        else res
      parseAVIHeaderListGoOddPad data endOffset fuel
        (offset + 8 + chunkSize +
          (if chunkSize.tmod 2 = 1 ∨ chunkSize.tmod 2 = -1 then 1 else 0)) res1
    else some res

/-- The top-level RIFF chunk `while` loop of `parseAVIMetadata`
(video-utils.ts lines 111-133), starting at offset 12. -/
def parseAVIMetadataGo (data : List ℕ) : ℕ → ℤ → AVIAcc → Option AVIAcc
  | 0, _, _ => none
  | fuel + 1, offset, acc =>
    if offset < (data.length : ℤ) - 8 then
      let chunkId := readString data offset 4
      let chunkSize := readUint32LE data (offset + 4)
      let nextOffset := offset + 8 + chunkSize + (if chunkSize.tmod 2 = 1 then 1 else 0)
      if chunkId = listStr then
        let listType := readString data (offset + 8) 4
        if listType = hdrlStr then
          match parseAVIHeaderList fuel data (offset + 12) (chunkSize - 4) with
          | none => none
          | some hd =>
            let acc1 : AVIAcc :=
              { width := if optTruthy hd.width then hd.width.getD 0 else acc.width,
                height := if optTruthy hd.height then hd.height.getD 0 else acc.height,
                frameRate := if optTruthyQ hd.frameRate then hd.frameRate.getD 0 else acc.frameRate,
                totalFrames := if optTruthy hd.totalFrames then hd.totalFrames.getD 0 else acc.totalFrames }
            parseAVIMetadataGo data fuel nextOffset acc1
        else parseAVIMetadataGo data fuel nextOffset acc
      else parseAVIMetadataGo data fuel nextOffset acc
    else some acc

/-- The tail of `parseAVIMetadata` after the chunk loop (video-utils.ts lines
135-158): derive the duration when frame count and rate are positive, then
succeed only on a complete result.  Factored out of `parseAVIMetadata`
verbatim. -/
def aviPost (acc : AVIAcc) (len : ℕ) : Except Unit VideoMetadata :=
  let duration : ℚ :=
    if 0 < acc.totalFrames ∧ 0 < acc.frameRate then (acc.totalFrames : ℚ) / acc.frameRate
    else 0
  if 0 < duration ∧ 0 < acc.width ∧ 0 < acc.height then
    Except.ok { duration := duration, width := acc.width, height := acc.height,
                aspectRatio := (acc.width : ℚ) / (acc.height : ℚ),
                fileSize := len }
  else Except.error ()

/-- `parseAVIMetadata(file)` of video-utils.ts (lines 93-159): read the first
64 KiB, walk the RIFF chunks, derive duration, and succeed only on a complete
result. -/
def parseAVIMetadata (fuel : ℕ) (file : List ℕ) : Option (Except Unit VideoMetadata) :=
  let data := jsSlice file 0 (min 65536 (file.length : ℤ))
  match parseAVIMetadataGo data fuel 12 ⟨0, 0, 0, 0⟩ with
  | none => none
  | some acc => some (aviPost acc file.length)

/-- `getVideoMetadataFromBinary(file)` of video-utils.ts (lines 66-91):
read the first 12 bytes, dispatch to the AVI walker on `RIFF`+`AVI `,
otherwise to the MP4/MOV walker. -/
def getVideoMetadataFromBinary (fuel : ℕ) (file : List ℕ) :
    Option (Except Unit VideoMetadata) :=
  let headerData := jsSlice file 0 12
  if readString headerData 0 4 = riffStr ∧ readString headerData 8 4 = aviStr then
    parseAVIMetadata fuel file
  else parseMP4Metadata fuel file

/-- The fixed ratio table of `getAspectRatioDisplay` (video-utils.ts 775-784). -/
def commonRatios : List (ℚ × String) :=
  [(16 / 9, "16:9"), (4 / 3, "4:3"), (3 / 2, "3:2"), (21 / 9, "21:9"),
   (1 / 1, "1:1"), (9 / 16, "9:16"), (3 / 4, "3:4"), (2 / 3, "2:3")]

/-- `getAspectRatioDisplay(aspectRatio)` of video-utils.ts (lines 772-793):
first table entry within absolute tolerance 0.01, else the empty string. -/
def getAspectRatioDisplay (aspectRatio : ℚ) : String :=
  match commonRatios.find? (fun p => |aspectRatio - p.1| < 1 / 100) with
  | some p => p.2
  | none => ""

/-- Spec-modelled, from the words of claim C1: the three byte windows the
chunked-read strategy is said to attempt, in order: the head window of
min(512 KiB, fileSize) bytes, the tail window of the last min(1 MiB,
fileSize) bytes, and — only when the file is at most 10 MiB — the whole
file. -/
def mp4Windows (n : ℕ) : List (ℤ × ℤ) :=
  [((0 : ℤ), min 524288 (n : ℤ)),
   ((n : ℤ) - min 1048576 (n : ℤ), min 1048576 (n : ℤ))] ++
  (if (n : ℤ) ≤ 10485760 then [((0 : ℤ), (n : ℤ))] else [])

/-- Spec-modelled, from the words of claim C1: attempt the windows in order,
stop at the first complete result, throw when none is complete. -/
def firstCompleteAttempt (fuel : ℕ) (file : List ℕ) :
    List (ℤ × ℤ) → Option (Except Unit VideoMetadata)
  | [] => some (Except.error ())
  | w :: ws =>
    match tryParseMP4Chunk fuel file w.1 w.2 with
    | none => none
    | some r =>
      if isCompleteMetadata r then some (Except.ok r)
      else firstCompleteAttempt fuel file ws

/-! ### Test fixtures: concrete and parametric byte buffers -/

/-- Big-endian 4-byte encoding of a 32-bit value. -/
def be32 (x : ℕ) : List ℕ := [x / 16777216 % 256, x / 65536 % 256, x / 256 % 256, x % 256]

/-- Little-endian 4-byte encoding of a 32-bit value. -/
def le32 (x : ℕ) : List ℕ := [x % 256, x / 256 % 256, x / 65536 % 256, x / 16777216 % 256]

/-- A version-0 `mvhd` box (108 bytes): size, tag, version 0, flags,
creation time, modification time, then timescale `t` at box offset 20
(body offset 12) and duration `d` at box offset 24 (body offset 16). -/
def mvhdBoxV0 (t d : ℕ) : List ℕ :=
  [0, 0, 0, 108, 109, 118, 104, 100, 0, 0, 0, 0] ++
    be32 0 ++ be32 0 ++ be32 t ++ be32 d ++ List.replicate 80 0

/-- A version-1 `mvhd` box (120 bytes): size, tag, version 1, flags,
8-byte creation and modification times, then timescale `t` at box offset 28
(body offset 20) and a 64-bit duration with low word `d` at box offset 36
(body offset 28). -/
def mvhdBoxV1 (t d : ℕ) : List ℕ :=
  [0, 0, 0, 120, 109, 118, 104, 100, 1, 0, 0, 0] ++
    List.replicate 16 0 ++ be32 t ++ [0, 0, 0, 0] ++ be32 d ++ List.replicate 80 0

/-- A version-1 `mvhd` box carrying the sentinel value 555 at box offset 28
(body offset 20), 777 at box offset 36 (body offset 28) and 999 at box
offset 44 (body offset 36): it separates the offsets the code reads from the
offsets the spec sentence names. -/
def mvhdProbeV1 : List ℕ :=
  [0, 0, 0, 120, 109, 118, 104, 100, 1, 0, 0, 0] ++
    List.replicate 16 0 ++ be32 555 ++ [0, 0, 0, 0] ++ be32 777 ++
    [0, 0, 0, 0] ++ be32 999 ++ List.replicate 72 0

/-- A bare version-0 `tkhd` box (84 bytes) with raw 16.16 fixed-point width
`W` and height `H` at box offsets 68 and 72 (after the 4-byte version/flags,
20 bytes of version-0 fields and the 36-byte matrix). -/
def tkhdDataV0 (W H : ℕ) : List ℕ :=
  [0, 0, 0, 84, 116, 107, 104, 100, 0, 0, 0, 0] ++
    List.replicate 56 0 ++ be32 W ++ be32 H ++ List.replicate 8 0

/-- A bare version-1 `tkhd` box (96 bytes) with raw 16.16 fixed-point width
`W` and height `H` at box offsets 80 and 84 (after the 4-byte version/flags,
32 bytes of version-1 fields and the 36-byte matrix). -/
def tkhdDataV1 (W H : ℕ) : List ℕ :=
  [0, 0, 0, 96, 116, 107, 104, 100, 1, 0, 0, 0] ++
    List.replicate 68 0 ++ be32 W ++ be32 H ++ List.replicate 8 0

/-- A `trak` box (92 bytes) wrapping a version-0 `tkhd` whose fixed-point
width and height encode the integer pixel sizes `w` and `h` (both < 32768):
the raw values are `w * 65536` and `h * 65536`. -/
def trakBoxV0 (w h : ℕ) : List ℕ :=
  [0, 0, 0, 92, 116, 114, 97, 107, 0, 0, 0, 84, 116, 107, 104, 100, 0, 0, 0, 0] ++
    List.replicate 56 0 ++
    [w / 256, w % 256, 0, 0, h / 256, h % 256, 0, 0] ++ List.replicate 8 0

/-- A 116-byte file holding one `moov` box that contains only a version-0
`mvhd` with timescale 1000 and duration 5000. -/
def moovMvhdFile : List ℕ := [0, 0, 0, 116, 109, 111, 111, 118] ++ mvhdBoxV0 1000 5000

/-- A 208-byte MP4 file: a single `moov` box containing a version-0 `mvhd`
(timescale 1000, duration 5000) and one `trak`/`tkhd` (1280 x 720). -/
def completeMP4File : List ℕ :=
  [0, 0, 0, 208, 109, 111, 111, 118] ++ mvhdBoxV0 1000 5000 ++ trakBoxV0 1280 720

/-- A 24-byte buffer on which the MP4 atom loop never terminates: the atom at
offset 0 declares size 8 (tag "free"), and the atom at offset 8 declares the
size bytes FF FF FF F8, which `readUint32BE` reads as -8, sending the walker
back to offset 0 forever. -/
def mp4LoopFile : List ℕ :=
  [0, 0, 0, 8, 102, 114, 101, 101, 255, 255, 255, 248, 0, 0, 0, 0, 0, 0, 0, 0, 0, 0, 0, 0]

/-- A 24-byte RIFF/AVI file on which the AVI chunk loop never terminates: the
chunk at offset 12 declares the size bytes F8 FF FF FF, which `readUint32LE`
reads as -8, so the next offset is `12 + 8 + (-8) = 12` forever. -/
def aviLoopFile : List ℕ :=
  [82, 73, 70, 70, 0, 0, 0, 0, 65, 86, 73, 32, 0, 0, 0, 0, 248, 255, 255, 255, 0, 0, 0, 0]

/-- An 88-byte AVI file: RIFF/AVI header, one `LIST`/`hdrl` holding a single
`avih` chunk with `microSecPerFrame = msf` (body offset 0),
`totalFrames = tf` (body offset 8), `width = w` (body offset 24) and
`height = h` (body offset 28). -/
def aviFile (msf tf w h : ℕ) : List ℕ :=
  [82, 73, 70, 70, 0, 0, 0, 0, 65, 86, 73, 32, 76, 73, 83, 84, 68, 0, 0, 0,
   104, 100, 114, 108, 97, 118, 105, 104, 56, 0, 0, 0] ++
    le32 msf ++ [0, 0, 0, 0] ++ le32 tf ++ List.replicate 12 0 ++
    le32 w ++ le32 h ++ List.replicate 24 0

/-- A 98-byte AVI file whose `hdrl` list starts with a junk chunk of odd
declared size 1, followed by one pad byte, then the `avih` chunk
(msf 40000, 250 frames, 640 x 480): the `avih` header is aligned only if the
walker skips the pad byte. -/
def aviPadFile : List ℕ :=
  [82, 73, 70, 70, 0, 0, 0, 0, 65, 86, 73, 32, 76, 73, 83, 84, 78, 0, 0, 0,
   104, 100, 114, 108, 106, 117, 110, 107, 1, 0, 0, 0, 0, 0,
   97, 118, 105, 104, 56, 0, 0, 0] ++
    le32 40000 ++ [0, 0, 0, 0] ++ le32 250 ++ List.replicate 12 0 ++
    le32 640 ++ le32 480 ++ List.replicate 24 0

/-- A 64-byte header-list buffer containing a chunk at offset 24 whose
declared size bytes F3 FF FF FF read as -13 (odd).  Without a pad byte the
walker lands on offset 19, where an `avih` chunk (width 2, height 3,
5 frames) is spelled out; with the spec's pad byte it lands on offset 20 and
never meets an `avih` id. -/
def aviOddNegData : List ℕ :=
  [106, 0, 0, 0, 16, 0, 0, 0] ++ List.replicate 11 0 ++
    [97, 118, 105, 104, 56, 0, 0, 0, 0, 243, 255, 255, 255, 0, 0, 0, 5, 0, 0, 0] ++
    List.replicate 12 0 ++ [2, 0, 0, 0, 3, 0, 0, 0] ++ List.replicate 5 0

/-! ### Toolkit lemmas -/

lemma byteAt_lt (data : List ℕ) (i : ℤ) : byteAt data i < 256 := by
  unfold byteAt
  split
  · exact Nat.mod_lt _ (by norm_num)
  · norm_num

lemma byteAt_neg (data : List ℕ) (i : ℤ) (h : i < 0) : byteAt data i = 0 := by
  unfold byteAt
  rw [if_neg]
  omega

lemma byteAt_oob (data : List ℕ) (i : ℤ) (h : (data.length : ℤ) ≤ i) : byteAt data i = 0 := by
  unfold byteAt
  rw [if_neg]
  omega

lemma u32be_lt (data : List ℕ) (i : ℤ) : u32be data i < 4294967296 := by
  have h0 := byteAt_lt data i
  have h1 := byteAt_lt data (i + 1)
  have h2 := byteAt_lt data (i + 2)
  have h3 := byteAt_lt data (i + 3)
  unfold u32be
  omega

lemma u32le_lt (data : List ℕ) (i : ℤ) : u32le data i < 4294967296 := by
  have h0 := byteAt_lt data i
  have h1 := byteAt_lt data (i + 1)
  have h2 := byteAt_lt data (i + 2)
  have h3 := byteAt_lt data (i + 3)
  unfold u32le
  omega

lemma jsToInt32_of_lt (n : ℕ) (h : n < 2147483648) : jsToInt32 n = (n : ℤ) := by
  unfold jsToInt32
  rw [Nat.mod_eq_of_lt (by omega), if_pos h]

lemma jsToInt32_of_ge (n : ℕ) (hlo : 2147483648 ≤ n) (hhi : n < 4294967296) :
    jsToInt32 n = (n : ℤ) - 4294967296 := by
  unfold jsToInt32
  rw [Nat.mod_eq_of_lt (by omega), if_neg (by omega)]

lemma readUint32BE_of_lt (data : List ℕ) (i : ℤ) (h : u32be data i < 2147483648) :
    readUint32BE data i = (u32be data i : ℤ) :=
  jsToInt32_of_lt _ h

lemma readUint32LE_of_lt (data : List ℕ) (i : ℤ) (h : u32le data i < 2147483648) :
    readUint32LE data i = (u32le data i : ℤ) :=
  jsToInt32_of_lt _ h

lemma jsRound_intCast (w : ℤ) : jsRound (w : ℚ) = w := by
  unfold jsRound
  rw [Int.floor_eq_iff]
  constructor
  · linarith
  · linarith

lemma jsRound_fixed (w : ℕ) : jsRound ((((w * 65536 : ℕ) : ℤ) : ℚ) / 65536) = (w : ℤ) := by
  have h : (((w * 65536 : ℕ) : ℤ) : ℚ) / 65536 = ((w : ℤ) : ℚ) := by
    push_cast
    field_simp
  rw [h, jsRound_intCast]

lemma u32be_eq_of_digits (data : List ℕ) (i : ℤ) (t : ℕ) (hlt : t < 4294967296)
    (h0 : byteAt data i = t / 16777216 % 256 % 256)
    (h1 : byteAt data (i + 1) = t / 65536 % 256 % 256)
    (h2 : byteAt data (i + 2) = t / 256 % 256 % 256)
    (h3 : byteAt data (i + 3) = t % 256 % 256) : u32be data i = t := by
  unfold u32be
  rw [h0, h1, h2, h3]
  omega

lemma readUint32BE_eq_of_digits (data : List ℕ) (i : ℤ) (t : ℕ) (hlt : t < 2147483648)
    (h0 : byteAt data i = t / 16777216 % 256 % 256)
    (h1 : byteAt data (i + 1) = t / 65536 % 256 % 256)
    (h2 : byteAt data (i + 2) = t / 256 % 256 % 256)
    (h3 : byteAt data (i + 3) = t % 256 % 256) : readUint32BE data i = (t : ℤ) := by
  unfold readUint32BE
  rw [u32be_eq_of_digits data i t (by omega) h0 h1 h2 h3]
  exact jsToInt32_of_lt t hlt

lemma u32le_eq_of_digits (data : List ℕ) (i : ℤ) (t : ℕ) (hlt : t < 4294967296)
    (h0 : byteAt data i = t % 256 % 256)
    (h1 : byteAt data (i + 1) = t / 256 % 256 % 256)
    (h2 : byteAt data (i + 2) = t / 65536 % 256 % 256)
    (h3 : byteAt data (i + 3) = t / 16777216 % 256 % 256) : u32le data i = t := by
  unfold u32le
  rw [h0, h1, h2, h3]
  omega

lemma readUint32LE_eq_of_digits (data : List ℕ) (i : ℤ) (t : ℕ) (hlt : t < 2147483648)
    (h0 : byteAt data i = t % 256 % 256)
    (h1 : byteAt data (i + 1) = t / 256 % 256 % 256)
    (h2 : byteAt data (i + 2) = t / 65536 % 256 % 256)
    (h3 : byteAt data (i + 3) = t / 16777216 % 256 % 256) : readUint32LE data i = (t : ℤ) := by
  unfold readUint32LE
  rw [u32le_eq_of_digits data i t (by omega) h0 h1 h2 h3]
  exact jsToInt32_of_lt t hlt

lemma readUint32BE_eq_of_bytes (data : List ℕ) (i : ℤ) (b0 b1 b2 b3 : ℕ)
    (h0 : byteAt data i = b0) (h1 : byteAt data (i + 1) = b1)
    (h2 : byteAt data (i + 2) = b2) (h3 : byteAt data (i + 3) = b3) :
    readUint32BE data i = jsToInt32 (b0 * 16777216 + b1 * 65536 + b2 * 256 + b3) := by
  unfold readUint32BE u32be
  rw [h0, h1, h2, h3]

lemma readUint32LE_eq_of_bytes (data : List ℕ) (i : ℤ) (b0 b1 b2 b3 : ℕ)
    (h0 : byteAt data i = b0) (h1 : byteAt data (i + 1) = b1)
    (h2 : byteAt data (i + 2) = b2) (h3 : byteAt data (i + 3) = b3) :
    readUint32LE data i = jsToInt32 (b0 + b1 * 256 + b2 * 65536 + b3 * 16777216) := by
  unfold readUint32LE u32le
  rw [h0, h1, h2, h3]

lemma readUint32BE_fixed16 (data : List ℕ) (i : ℤ) (w : ℕ) (hw : w < 32768)
    (h0 : byteAt data i = w / 256 % 256)
    (h1 : byteAt data (i + 1) = w % 256 % 256)
    (h2 : byteAt data (i + 2) = 0)
    (h3 : byteAt data (i + 3) = 0) : readUint32BE data i = ((w * 65536 : ℕ) : ℤ) := by
  unfold readUint32BE
  have hu : u32be data i = w * 65536 := by
    unfold u32be
    rw [h0, h1, h2, h3]
    omega
  rw [hu]
  exact jsToInt32_of_lt _ (by omega)

lemma jsSlice_all (file : List ℕ) (e : ℤ) (h : (file.length : ℤ) ≤ e) :
    jsSlice file 0 e = file := by
  unfold jsSlice jsSliceFrom
  rw [if_neg (by omega), if_neg (by omega)]
  have he : min e.toNat file.length = file.length := by omega
  have h0 : min (Int.toNat 0) file.length = 0 := by omega
  rw [he, h0, List.take_length, List.drop_zero]

/-! Step lemmas: one per control-flow branch of each embedded `while` loop.
They are plain unfoldings of the definitions, given the branch conditions. -/

lemma parseTrackAtomGo_exit (data : List ℕ) (endOffset : ℤ) (fuel : ℕ) (offset : ℤ)
    (h : ¬ offset < endOffset - 8) :
    parseTrackAtomGo data endOffset (fuel + 1) offset = some {} := by
  simp only [parseTrackAtomGo]
  rw [if_neg h]

lemma parseTrackAtomGo_break (data : List ℕ) (endOffset : ℤ) (fuel : ℕ) (offset : ℤ)
    (h1 : offset < endOffset - 8)
    (h2 : readUint32BE data offset = 0 ∨ readUint32BE data offset > endOffset - offset) :
    parseTrackAtomGo data endOffset (fuel + 1) offset = some {} := by
  simp only [parseTrackAtomGo]
  rw [if_pos h1, if_pos h2]

lemma parseTrackAtomGo_tkhd (data : List ℕ) (endOffset : ℤ) (fuel : ℕ) (offset : ℤ)
    (h1 : offset < endOffset - 8)
    (h2 : ¬ (readUint32BE data offset = 0 ∨ readUint32BE data offset > endOffset - offset))
    (h3 : readString data (offset + 4) 4 = tkhdStr) :
    parseTrackAtomGo data endOffset (fuel + 1) offset =
      some { width := some (jsRound
               ((readUint32BE data (offset + 12 + (if byteAt data (offset + 8) = 1 then 32 else 20) + 36) : ℚ) / 65536)),
             height := some (jsRound
               ((readUint32BE data (offset + 12 + (if byteAt data (offset + 8) = 1 then 32 else 20) + 36 + 4) : ℚ) / 65536)) } := by
  simp only [parseTrackAtomGo]
  rw [if_pos h1, if_neg h2, if_pos h3]

lemma parseTrackAtomGo_next (data : List ℕ) (endOffset : ℤ) (fuel : ℕ) (offset : ℤ)
    (h1 : offset < endOffset - 8)
    (h2 : ¬ (readUint32BE data offset = 0 ∨ readUint32BE data offset > endOffset - offset))
    (h3 : readString data (offset + 4) 4 ≠ tkhdStr) :
    parseTrackAtomGo data endOffset (fuel + 1) offset =
      parseTrackAtomGo data endOffset fuel (offset + readUint32BE data offset) := by
  simp only [parseTrackAtomGo]
  rw [if_pos h1, if_neg h2, if_neg h3]

lemma parseMoovAtomGo_exit (data : List ℕ) (endOffset : ℤ) (fuel : ℕ) (offset : ℤ)
    (res : MoovInfo) (h : ¬ offset < endOffset - 8) :
    parseMoovAtomGo data endOffset (fuel + 1) offset res = some res := by
  simp only [parseMoovAtomGo]
  rw [if_neg h]

lemma parseMoovAtomGo_break (data : List ℕ) (endOffset : ℤ) (fuel : ℕ) (offset : ℤ)
    (res : MoovInfo) (h1 : offset < endOffset - 8)
    (h2 : readUint32BE data offset = 0 ∨ readUint32BE data offset > endOffset - offset) :
    parseMoovAtomGo data endOffset (fuel + 1) offset res = some res := by
  simp only [parseMoovAtomGo]
  rw [if_pos h1, if_pos h2]

lemma parseMoovAtomGo_mvhd (data : List ℕ) (endOffset : ℤ) (fuel : ℕ) (offset : ℤ)
    (res : MoovInfo) (h1 : offset < endOffset - 8)
    (h2 : ¬ (readUint32BE data offset = 0 ∨ readUint32BE data offset > endOffset - offset))
    (h3 : readString data (offset + 4) 4 = mvhdStr) :
    parseMoovAtomGo data endOffset (fuel + 1) offset res =
      parseMoovAtomGo data endOffset fuel (offset + readUint32BE data offset)
        (if byteAt data (offset + 8) = 1 then
          { res with timescale := some (readUint32BE data (offset + 28)),
                     duration := some (readUint32BE data (offset + 36)) }
         else
          { res with timescale := some (readUint32BE data (offset + 20)),
                     duration := some (readUint32BE data (offset + 24)) }) := by
  have hne : readString data (offset + 4) 4 ≠ trakStr := by
    rw [h3]
    decide
  simp only [parseMoovAtomGo]
  rw [if_pos h1, if_neg h2, if_pos h3, if_neg hne]

lemma parseMoovAtomGo_trak (data : List ℕ) (endOffset : ℤ) (fuel : ℕ) (offset : ℤ)
    (res : MoovInfo) (td : TrackInfo) (h1 : offset < endOffset - 8)
    (h2 : ¬ (readUint32BE data offset = 0 ∨ readUint32BE data offset > endOffset - offset))
    (h3 : readString data (offset + 4) 4 = trakStr)
    (h4 : parseTrackAtom fuel data (offset + 8) (readUint32BE data offset - 8) = some td) :
    parseMoovAtomGo data endOffset (fuel + 1) offset res =
      parseMoovAtomGo data endOffset fuel (offset + readUint32BE data offset)
        (if optTruthy td.width && optTruthy td.height then
          { res with width := td.width, height := td.height }
         else res) := by
  have hne : readString data (offset + 4) 4 ≠ mvhdStr := by
    rw [h3]
    decide
  simp only [parseMoovAtomGo]
  rw [if_pos h1, if_neg h2, if_neg hne, if_pos h3, h4]

lemma parseMoovAtomGo_other (data : List ℕ) (endOffset : ℤ) (fuel : ℕ) (offset : ℤ)
    (res : MoovInfo) (h1 : offset < endOffset - 8)
    (h2 : ¬ (readUint32BE data offset = 0 ∨ readUint32BE data offset > endOffset - offset))
    (h3 : readString data (offset + 4) 4 ≠ mvhdStr)
    (h4 : readString data (offset + 4) 4 ≠ trakStr) :
    parseMoovAtomGo data endOffset (fuel + 1) offset res =
      parseMoovAtomGo data endOffset fuel (offset + readUint32BE data offset) res := by
  simp only [parseMoovAtomGo]
  rw [if_pos h1, if_neg h2, if_neg h3, if_neg h4]

lemma tryParseMP4ChunkGo_exit (data : List ℕ) (fuel : ℕ) (offset : ℤ)
    (h : ¬ offset < (data.length : ℤ) - 8) :
    tryParseMP4ChunkGo data (fuel + 1) offset = some {} := by
  simp only [tryParseMP4ChunkGo]
  rw [if_neg h]

lemma tryParseMP4ChunkGo_break (data : List ℕ) (fuel : ℕ) (offset : ℤ)
    (h1 : offset < (data.length : ℤ) - 8)
    (h2 : readUint32BE data offset = 0 ∨ readUint32BE data offset > (data.length : ℤ) - offset) :
    tryParseMP4ChunkGo data (fuel + 1) offset = some {} := by
  simp only [tryParseMP4ChunkGo]
  rw [if_pos h1, if_pos h2]

lemma tryParseMP4ChunkGo_moov (data : List ℕ) (fuel : ℕ) (offset : ℤ)
    (h1 : offset < (data.length : ℤ) - 8)
    (h2 : ¬ (readUint32BE data offset = 0 ∨ readUint32BE data offset > (data.length : ℤ) - offset))
    (h3 : readString data (offset + 4) 4 = moovStr) :
    tryParseMP4ChunkGo data (fuel + 1) offset =
      parseMoovAtom fuel data (offset + 8)
        (min (readUint32BE data offset - 8) ((data.length : ℤ) - offset - 8)) := by
  simp only [tryParseMP4ChunkGo]
  rw [if_pos h1, if_neg h2, if_pos h3]

lemma tryParseMP4ChunkGo_next (data : List ℕ) (fuel : ℕ) (offset : ℤ)
    (h1 : offset < (data.length : ℤ) - 8)
    (h2 : ¬ (readUint32BE data offset = 0 ∨ readUint32BE data offset > (data.length : ℤ) - offset))
    (h3 : readString data (offset + 4) 4 ≠ moovStr) :
    tryParseMP4ChunkGo data (fuel + 1) offset =
      tryParseMP4ChunkGo data fuel (offset + readUint32BE data offset) := by
  simp only [tryParseMP4ChunkGo]
  rw [if_pos h1, if_neg h2, if_neg h3]

lemma parseAVIHeaderListGo_exit (data : List ℕ) (endOffset : ℤ) (fuel : ℕ) (offset : ℤ)
    (res : AVIHeaderInfo) (h : ¬ offset < endOffset - 8) :
    parseAVIHeaderListGo data endOffset (fuel + 1) offset res = some res := by
  simp only [parseAVIHeaderListGo]
  rw [if_neg h]

lemma parseAVIHeaderListGo_avih (data : List ℕ) (endOffset : ℤ) (fuel : ℕ) (offset : ℤ)
    (res : AVIHeaderInfo) (h1 : offset < endOffset - 8)
    (h2 : readString data offset 4 = avihStr) :
    parseAVIHeaderListGo data endOffset (fuel + 1) offset res =
      parseAVIHeaderListGo data endOffset fuel
        (offset + 8 + readUint32LE data (offset + 4) +
          (if (readUint32LE data (offset + 4)).tmod 2 = 1 then 1 else 0))
        { res with
          totalFrames := some (readUint32LE data (offset + 16)),
          width := some (readUint32LE data (offset + 32)),
          height := some (readUint32LE data (offset + 36)),
          frameRate :=
            if 0 < readUint32LE data (offset + 8) then
              some ((1000000 : ℚ) / (readUint32LE data (offset + 8) : ℚ))
            else res.frameRate } := by
  simp only [parseAVIHeaderListGo]
  rw [if_pos h1, if_pos h2]

lemma parseAVIHeaderListGo_other (data : List ℕ) (endOffset : ℤ) (fuel : ℕ) (offset : ℤ)
    (res : AVIHeaderInfo) (h1 : offset < endOffset - 8)
    (h2 : readString data offset 4 ≠ avihStr) :
    parseAVIHeaderListGo data endOffset (fuel + 1) offset res =
      parseAVIHeaderListGo data endOffset fuel
        (offset + 8 + readUint32LE data (offset + 4) +
          (if (readUint32LE data (offset + 4)).tmod 2 = 1 then 1 else 0)) res := by
  simp only [parseAVIHeaderListGo]
  rw [if_pos h1, if_neg h2]

lemma tryParseMP4Chunk_eq_go (fuel : ℕ) (file : List ℕ) (start size : ℤ) (mi : MoovInfo)
    (hgo : tryParseMP4ChunkGo (jsSlice file start (start + size)) fuel 0 = some mi) :
    tryParseMP4Chunk fuel file start size = some (mp4Post mi file.length) := by
  unfold tryParseMP4Chunk
  dsimp only
  rw [hgo]

lemma tryParseMP4Chunk_none (fuel : ℕ) (file : List ℕ) (start size : ℤ)
    (hgo : tryParseMP4ChunkGo (jsSlice file start (start + size)) fuel 0 = none) :
    tryParseMP4Chunk fuel file start size = none := by
  unfold tryParseMP4Chunk
  dsimp only
  rw [hgo]

lemma parseAVIMetadata_eq_go (fuel : ℕ) (file : List ℕ) (acc : AVIAcc)
    (hgo : parseAVIMetadataGo (jsSlice file 0 (min 65536 (file.length : ℤ))) fuel 12
      ⟨0, 0, 0, 0⟩ = some acc) :
    parseAVIMetadata fuel file = some (aviPost acc file.length) := by
  unfold parseAVIMetadata
  dsimp only
  rw [hgo]

lemma aviPost_ok (W H : ℤ) (FR : ℚ) (TF : ℤ) (len : ℕ)
    (hTF : 0 < TF) (hFR : 0 < FR) (hW : 0 < W) (hH : 0 < H) :
    aviPost ⟨W, H, FR, TF⟩ len =
      Except.ok ⟨(TF : ℚ) / FR, W, H, (W : ℚ) / (H : ℚ), len⟩ := by
  unfold aviPost
  dsimp only
  rw [if_pos (show 0 < TF ∧ 0 < FR from ⟨hTF, hFR⟩)]
  rw [if_pos (show (0 : ℚ) < (TF : ℚ) / FR ∧ 0 < W ∧ 0 < H from
    ⟨div_pos (by exact_mod_cast hTF) hFR, hW, hH⟩)]

lemma mp4Post_mvhd_only (D T : ℤ) (len : ℕ) (hD : D ≠ 0) (hT : T ≠ 0) :
    mp4Post ⟨some D, some T, none, none⟩ len =
      ⟨if 0 < D ∧ 0 < T then (D : ℚ) / (T : ℚ) else (D : ℚ), 0, 0, 0, len⟩ := by
  unfold mp4Post
  simp [optTruthy, hD, hT]

lemma mp4Post_full (D T W H : ℤ) (len : ℕ)
    (hD : D ≠ 0) (hT : T ≠ 0) (hW : W ≠ 0) (hH : H ≠ 0) :
    mp4Post ⟨some D, some T, some W, some H⟩ len =
      ⟨if 0 < D ∧ 0 < T then (D : ℚ) / (T : ℚ) else (D : ℚ), W, H,
       if 0 < W ∧ 0 < H then (W : ℚ) / (H : ℚ) else 0, len⟩ := by
  unfold mp4Post
  simp [optTruthy, hD, hT, hW, hH]

lemma mp4Post_empty (len : ℕ) : mp4Post {} len = ⟨0, 0, 0, 0, len⟩ := by
  unfold mp4Post
  simp [optTruthy]

lemma parseAVIMetadataGo_exit (data : List ℕ) (fuel : ℕ) (offset : ℤ) (acc : AVIAcc)
    (h : ¬ offset < (data.length : ℤ) - 8) :
    parseAVIMetadataGo data (fuel + 1) offset acc = some acc := by
  simp only [parseAVIMetadataGo]
  rw [if_neg h]

lemma parseAVIMetadataGo_hdrl (data : List ℕ) (fuel : ℕ) (offset : ℤ) (acc : AVIAcc)
    (hd : AVIHeaderInfo) (h1 : offset < (data.length : ℤ) - 8)
    (h2 : readString data offset 4 = listStr)
    (h3 : readString data (offset + 8) 4 = hdrlStr)
    (h4 : parseAVIHeaderList fuel data (offset + 12) (readUint32LE data (offset + 4) - 4) = some hd) :
    parseAVIMetadataGo data (fuel + 1) offset acc =
      parseAVIMetadataGo data fuel
        (offset + 8 + readUint32LE data (offset + 4) +
          (if (readUint32LE data (offset + 4)).tmod 2 = 1 then 1 else 0))
        { width := if optTruthy hd.width then hd.width.getD 0 else acc.width,
          height := if optTruthy hd.height then hd.height.getD 0 else acc.height,
          frameRate := if optTruthyQ hd.frameRate then hd.frameRate.getD 0 else acc.frameRate,
          totalFrames := if optTruthy hd.totalFrames then hd.totalFrames.getD 0 else acc.totalFrames } := by
  simp only [parseAVIMetadataGo]
  rw [if_pos h1, if_pos h2, if_pos h3, h4]

lemma parseAVIMetadataGo_skip (data : List ℕ) (fuel : ℕ) (offset : ℤ) (acc : AVIAcc)
    (h1 : offset < (data.length : ℤ) - 8)
    (h2 : readString data offset 4 ≠ listStr) :
    parseAVIMetadataGo data (fuel + 1) offset acc =
      parseAVIMetadataGo data fuel
        (offset + 8 + readUint32LE data (offset + 4) +
          (if (readUint32LE data (offset + 4)).tmod 2 = 1 then 1 else 0)) acc := by
  simp only [parseAVIMetadataGo]
  rw [if_pos h1, if_neg h2]

/-! ### Claims -/

/-- Claim C8: the claim says `readUint32BE`/`readUint32LE` return the
unsigned 32-bit value in `[0, 2^32)` even when the most significant byte is
`0x80` or more.  The code uses JS `|`/`<<`, which produce a SIGNED 32-bit
result: on the buffer `[0x80, 0, 0, 0]` (big-endian) and `[0, 0, 0, 0x80]`
(little-endian) both reads return `-2147483648`, not `2147483648`; size
bytes `FF FF FF F8` read as `-8`. -/
theorem readUint32_signed_at_high_byte :
    readUint32BE [128, 0, 0, 0] 0 = -2147483648 ∧
    readUint32LE [0, 0, 0, 128] 0 = -2147483648 ∧
    readUint32BE [255, 255, 255, 248] 0 = -8 := by
  decide

lemma mp4LoopFile_go (n : ℕ) :
    tryParseMP4ChunkGo mp4LoopFile n 0 = none ∧ tryParseMP4ChunkGo mp4LoopFile n 8 = none := by
  induction n with
  | zero => exact ⟨rfl, rfl⟩
  | succ k ih =>
    constructor
    · rw [tryParseMP4ChunkGo_next mp4LoopFile k 0 (by decide) (by decide) (by decide)]
      have h8 : (0 : ℤ) + readUint32BE mp4LoopFile 0 = 8 := by decide
      rw [h8]
      exact ih.2
    · rw [tryParseMP4ChunkGo_next mp4LoopFile k 8 (by decide) (by decide) (by decide)]
      have h0 : (8 : ℤ) + readUint32BE mp4LoopFile 8 = 0 := by decide
      rw [h0]
      exact ih.1

lemma aviLoopFile_go (n : ℕ) :
    parseAVIMetadataGo aviLoopFile n 12 ⟨0, 0, 0, 0⟩ = none := by
  induction n with
  | zero => rfl
  | succ k ih =>
    rw [parseAVIMetadataGo_skip aviLoopFile k 12 ⟨0, 0, 0, 0⟩ (by decide) (by decide)]
    have h12 : (12 : ℤ) + 8 + readUint32LE aviLoopFile (12 + 4) +
        (if (readUint32LE aviLoopFile (12 + 4)).tmod 2 = 1 then 1 else 0) = 12 := by decide
    rw [h12]
    exact ih

/-- Claim C9: the claim says no declared size value (including values with
the top bit set) can make the box/chunk iteration revisit the same offset
forever.  It is false: on the 24-byte `mp4LoopFile` the MP4 atom loop cycles
between offsets 0 and 8 (size 8 at offset 0, size bytes `FF FF FF F8` read
as -8 at offset 8), and on the 24-byte `aviLoopFile` the AVI chunk loop
stays at offset 12 forever (size bytes `F8 FF FF FF` read as -8, and
`8 + (-8) = 0`).  Neither call ever returns, for any loop fuel. -/
theorem walkers_can_loop_forever :
    (∀ fuel, getVideoMetadataFromBinary fuel mp4LoopFile = none) ∧
    (∀ fuel, getVideoMetadataFromBinary fuel aviLoopFile = none) := by
  constructor
  · intro fuel
    simp only [getVideoMetadataFromBinary]
    rw [if_neg (by decide)]
    simp only [parseMP4Metadata, tryParseMP4Chunk]
    have hdata : jsSlice mp4LoopFile 0 (0 + min 524288 ((mp4LoopFile.length : ℕ) : ℤ)) =
        mp4LoopFile := by decide
    rw [hdata, (mp4LoopFile_go fuel).1]
  · intro fuel
    simp only [getVideoMetadataFromBinary]
    rw [if_pos (by decide)]
    simp only [parseAVIMetadata]
    have hdata : jsSlice aviLoopFile 0 (min 65536 ((aviLoopFile.length : ℕ) : ℤ)) =
        aviLoopFile := by decide
    rw [hdata, aviLoopFile_go fuel]

/-- Claim C3, counterexample: on a version-1 `mvhd` carrying 555 at body
offset 20, 777 at body offset 28 and 999 at body offset 36, the walker
returns timescale 555 and duration 777 (reading body offsets 20 and 28,
i.e. box offsets 28 and 36) — not timescale 777 and duration 999 as the
claimed body offsets 28 and 36 would give. -/
theorem mvhd_v1_spec_offsets_refuted :
    parseMoovAtom 3 mvhdProbeV1 0 120 = some ⟨some 777, some 555, none, none⟩ ∧
    parseMoovAtom 3 mvhdProbeV1 0 120 ≠ some ⟨some 999, some 777, none, none⟩ := by
  decide

lemma parseMoovAtom_mvhdV0 (t d : ℕ) (f : ℕ) (ht : t < 2147483648) (hd : d < 2147483648) :
    parseMoovAtom (f + 2) (mvhdBoxV0 t d) 0 108 =
      some ⟨some (d : ℤ), some (t : ℤ), none, none⟩ := by
  have hs : readUint32BE (mvhdBoxV0 t d) 0 = 108 := by
    rw [readUint32BE_eq_of_bytes (mvhdBoxV0 t d) 0 0 0 0 108 rfl rfl rfl rfl]
    decide
  have hts : readUint32BE (mvhdBoxV0 t d) (0 + 20) = (t : ℤ) :=
    readUint32BE_eq_of_digits _ _ t ht rfl rfl rfl rfl
  have hdur : readUint32BE (mvhdBoxV0 t d) (0 + 24) = (d : ℤ) :=
    readUint32BE_eq_of_digits _ _ d hd rfl rfl rfl rfl
  have hv : byteAt (mvhdBoxV0 t d) (0 + 8) = 0 := rfl
  have hf : f + 2 = (f + 1) + 1 := rfl
  simp only [parseMoovAtom]
  rw [hf]
  rw [parseMoovAtomGo_mvhd (mvhdBoxV0 t d) (0 + 108) (f + 1) 0 {}
    (by norm_num) (by rw [hs]; norm_num) rfl]
  rw [hv, if_neg (by norm_num : ¬ (0 : ℕ) = 1), hs, hts, hdur]
  rw [parseMoovAtomGo_exit (mvhdBoxV0 t d) (0 + 108) f (0 + 108) _ (by norm_num)]

lemma parseMoovAtom_mvhdV1 (t d : ℕ) (f : ℕ) (ht : t < 2147483648) (hd : d < 2147483648) :
    parseMoovAtom (f + 2) (mvhdBoxV1 t d) 0 120 =
      some ⟨some (d : ℤ), some (t : ℤ), none, none⟩ := by
  have hs : readUint32BE (mvhdBoxV1 t d) 0 = 120 := by
    rw [readUint32BE_eq_of_bytes (mvhdBoxV1 t d) 0 0 0 0 120 rfl rfl rfl rfl]
    decide
  have hts : readUint32BE (mvhdBoxV1 t d) (0 + 28) = (t : ℤ) :=
    readUint32BE_eq_of_digits _ _ t ht rfl rfl rfl rfl
  have hdur : readUint32BE (mvhdBoxV1 t d) (0 + 36) = (d : ℤ) :=
    readUint32BE_eq_of_digits _ _ d hd rfl rfl rfl rfl
  have hv : byteAt (mvhdBoxV1 t d) (0 + 8) = 1 := rfl
  have hf : f + 2 = (f + 1) + 1 := rfl
  simp only [parseMoovAtom]
  rw [hf]
  rw [parseMoovAtomGo_mvhd (mvhdBoxV1 t d) (0 + 120) (f + 1) 0 {}
    (by norm_num) (by rw [hs]; norm_num) rfl]
  rw [hv, if_pos rfl, hs, hts, hdur]
  rw [parseMoovAtomGo_exit (mvhdBoxV1 t d) (0 + 120) f (0 + 120) _ (by norm_num)]

lemma moovMvhdFile_scenario :
    tryParseMP4Chunk 3 moovMvhdFile 0 116 = some ⟨5, 0, 0, 0, 116⟩ := by
  have hgo : tryParseMP4ChunkGo (jsSlice moovMvhdFile 0 (0 + 116)) 3 0 =
      some ⟨some 5000, some 1000, none, none⟩ := by decide
  rw [tryParseMP4Chunk_eq_go 3 moovMvhdFile 0 116 ⟨some 5000, some 1000, none, none⟩ hgo]
  rw [mp4Post_mvhd_only 5000 1000 moovMvhdFile.length (by norm_num) (by norm_num)]
  rw [if_pos (show (0 : ℤ) < 5000 ∧ (0 : ℤ) < 1000 from ⟨by norm_num, by norm_num⟩)]
  have hlen : moovMvhdFile.length = 116 := by decide
  rw [hlen]
  norm_num

/-- Claim C3, amended: the walker reads the mvhd version byte at box
offset 8; for version 0 it reads timescale at body offset 12 (box offset 20)
and duration at body offset 16 (box offset 24); for version 1 it reads
timescale at body offset 20 (box offset 28) and duration — the low 32 bits
of the 64-bit field — at body offset 28 (box offset 36), not at body
offsets 28/36 as the claim says; the caller divides duration by timescale
(guarded against a non-positive timescale), so a version-0 mvhd with
timescale 1000 and duration 5000 yields 5 seconds. -/
theorem mvhd_timescale_duration_offsets (t d : ℕ) (f : ℕ)
    (ht : t < 2147483648) (hd : d < 2147483648) :
    parseMoovAtom (f + 2) (mvhdBoxV0 t d) 0 108 =
      some ⟨some (d : ℤ), some (t : ℤ), none, none⟩ ∧
    parseMoovAtom (f + 2) (mvhdBoxV1 t d) 0 120 =
      some ⟨some (d : ℤ), some (t : ℤ), none, none⟩ ∧
    tryParseMP4Chunk 3 moovMvhdFile 0 116 = some ⟨5, 0, 0, 0, 116⟩ :=
  ⟨parseMoovAtom_mvhdV0 t d f ht hd, parseMoovAtom_mvhdV1 t d f ht hd, moovMvhdFile_scenario⟩

/-- Claim C3, witness: the amended theorem applied at timescale 1000 and
duration 5000 for both mvhd versions. -/
theorem mvhd_timescale_duration_offsets_witness :
    parseMoovAtom 3 (mvhdBoxV0 1000 5000) 0 108 = some ⟨some 5000, some 1000, none, none⟩ ∧
    parseMoovAtom 3 (mvhdBoxV1 1000 5000) 0 120 = some ⟨some 5000, some 1000, none, none⟩ :=
  ⟨(mvhd_timescale_duration_offsets 1000 5000 1 (by norm_num) (by norm_num)).1,
   (mvhd_timescale_duration_offsets 1000 5000 1 (by norm_num) (by norm_num)).2.1⟩

lemma parseTrackAtom_tkhdV0 (W H : ℕ) (f : ℕ) (hW : W < 2147483648) (hH : H < 2147483648) :
    parseTrackAtom (f + 1) (tkhdDataV0 W H) 0 84 =
      some ⟨some (jsRound (((W : ℤ) : ℚ) / 65536)), some (jsRound (((H : ℤ) : ℚ) / 65536))⟩ := by
  have hs : readUint32BE (tkhdDataV0 W H) 0 = 84 := by
    rw [readUint32BE_eq_of_bytes (tkhdDataV0 W H) 0 0 0 0 84 rfl rfl rfl rfl]
    decide
  have hv : byteAt (tkhdDataV0 W H) 8 = 0 := rfl
  have hWr : readUint32BE (tkhdDataV0 W H) 68 = (W : ℤ) :=
    readUint32BE_eq_of_digits _ _ W hW rfl rfl rfl rfl
  have hHr : readUint32BE (tkhdDataV0 W H) 72 = (H : ℤ) :=
    readUint32BE_eq_of_digits _ _ H hH rfl rfl rfl rfl
  simp only [parseTrackAtom]
  norm_num only
  rw [parseTrackAtomGo_tkhd (tkhdDataV0 W H) 84 f 0 (by norm_num) (by rw [hs]; norm_num) rfl]
  norm_num only
  rw [hv, if_neg (by norm_num : ¬ (0 : ℕ) = 1)]
  norm_num only
  rw [hWr, hHr]

lemma parseTrackAtom_tkhdV1 (W H : ℕ) (f : ℕ) (hW : W < 2147483648) (hH : H < 2147483648) :
    parseTrackAtom (f + 1) (tkhdDataV1 W H) 0 96 =
      some ⟨some (jsRound (((W : ℤ) : ℚ) / 65536)), some (jsRound (((H : ℤ) : ℚ) / 65536))⟩ := by
  have hs : readUint32BE (tkhdDataV1 W H) 0 = 96 := by
    rw [readUint32BE_eq_of_bytes (tkhdDataV1 W H) 0 0 0 0 96 rfl rfl rfl rfl]
    decide
  have hv : byteAt (tkhdDataV1 W H) 8 = 1 := rfl
  have hWr : readUint32BE (tkhdDataV1 W H) 80 = (W : ℤ) :=
    readUint32BE_eq_of_digits _ _ W hW rfl rfl rfl rfl
  have hHr : readUint32BE (tkhdDataV1 W H) 84 = (H : ℤ) :=
    readUint32BE_eq_of_digits _ _ H hH rfl rfl rfl rfl
  simp only [parseTrackAtom]
  norm_num only
  rw [parseTrackAtomGo_tkhd (tkhdDataV1 W H) 96 f 0 (by norm_num) (by rw [hs]; norm_num) rfl]
  norm_num only
  rw [hv, if_pos rfl]
  norm_num only
  rw [hWr, hHr]

/-- Claim C4: on a `tkhd` box the walker reads the version byte at box
offset 8, skips 20 bytes (version 0) or 32 bytes (version 1) after the
4-byte version/flags field plus the 36-byte matrix, then reads the raw
16.16 width and height and converts each with `round(raw / 65536)`;
raw width `1280 * 65536` and raw height `720 * 65536` give 1280 x 720. -/
theorem tkhd_dimensions (W H : ℕ) (f : ℕ) (hW : W < 2147483648) (hH : H < 2147483648) :
    parseTrackAtom (f + 1) (tkhdDataV0 W H) 0 84 =
      some ⟨some (jsRound (((W : ℤ) : ℚ) / 65536)), some (jsRound (((H : ℤ) : ℚ) / 65536))⟩ ∧
    parseTrackAtom (f + 1) (tkhdDataV1 W H) 0 96 =
      some ⟨some (jsRound (((W : ℤ) : ℚ) / 65536)), some (jsRound (((H : ℤ) : ℚ) / 65536))⟩ ∧
    parseTrackAtom 1 (tkhdDataV0 (1280 * 65536) (720 * 65536)) 0 84 =
      some ⟨some 1280, some 720⟩ := by
  refine ⟨parseTrackAtom_tkhdV0 W H f hW hH, parseTrackAtom_tkhdV1 W H f hW hH, ?_⟩
  have h := parseTrackAtom_tkhdV0 (1280 * 65536) (720 * 65536) 0 (by norm_num) (by norm_num)
  rw [show (((1280 * 65536 : ℕ) : ℤ) : ℚ) / 65536 = ((1280 : ℤ) : ℚ) by norm_num,
      show (((720 * 65536 : ℕ) : ℤ) : ℚ) / 65536 = ((720 : ℤ) : ℚ) by norm_num,
      jsRound_intCast, jsRound_intCast] at h
  exact h

/-- Claim C4, witness: the theorem applied at raw width `1280 * 65536` and
raw height `720 * 65536`. -/
theorem tkhd_dimensions_witness :
    parseTrackAtom 1 (tkhdDataV0 (1280 * 65536) (720 * 65536)) 0 84 =
      some ⟨some 1280, some 720⟩ :=
  (tkhd_dimensions (1280 * 65536) (720 * 65536) 0 (by norm_num) (by norm_num)).2.2

lemma parseMoovAtomGo_trak_wh (data : List ℕ) (endOffset : ℤ) (fuel : ℕ) (offset : ℤ)
    (res : MoovInfo) (W H : ℤ) (h1 : offset < endOffset - 8)
    (h2 : ¬ (readUint32BE data offset = 0 ∨ readUint32BE data offset > endOffset - offset))
    (h3 : readString data (offset + 4) 4 = trakStr)
    (h4 : parseTrackAtom fuel data (offset + 8) (readUint32BE data offset - 8) =
      some ⟨some W, some H⟩)
    (h5 : W ≠ 0) (h6 : H ≠ 0) :
    parseMoovAtomGo data endOffset (fuel + 1) offset res =
      parseMoovAtomGo data endOffset fuel (offset + readUint32BE data offset)
        { res with width := some W, height := some H } := by
  rw [parseMoovAtomGo_trak data endOffset fuel offset res ⟨some W, some H⟩ h1 h2 h3 h4]
  have hb : (optTruthy (TrackInfo.width ⟨some W, some H⟩) &&
      optTruthy (TrackInfo.height ⟨some W, some H⟩)) = true := by
    simp [optTruthy, h5, h6]
  rw [if_pos hb]

lemma trakPair_first_track (w1 h1 w2 h2 : ℕ) (f : ℕ)
    (hw1 : w1 < 32768) (hh1 : h1 < 32768) :
    parseTrackAtom (f + 1) (trakBoxV0 w1 h1 ++ trakBoxV0 w2 h2) (0 + 8)
      (readUint32BE (trakBoxV0 w1 h1 ++ trakBoxV0 w2 h2) 0 - 8) =
      some ⟨some (w1 : ℤ), some (h1 : ℤ)⟩ := by
  have hs0 : readUint32BE (trakBoxV0 w1 h1 ++ trakBoxV0 w2 h2) 0 = 92 := by
    rw [readUint32BE_eq_of_bytes (trakBoxV0 w1 h1 ++ trakBoxV0 w2 h2) 0 0 0 0 92 rfl rfl rfl rfl]
    decide
  have hs : readUint32BE (trakBoxV0 w1 h1 ++ trakBoxV0 w2 h2) 8 = 84 := by
    rw [readUint32BE_eq_of_bytes (trakBoxV0 w1 h1 ++ trakBoxV0 w2 h2) 8 0 0 0 84 rfl rfl rfl rfl]
    decide
  have hv : byteAt (trakBoxV0 w1 h1 ++ trakBoxV0 w2 h2) 16 = 0 := rfl
  have hWr : readUint32BE (trakBoxV0 w1 h1 ++ trakBoxV0 w2 h2) 76 = ((w1 * 65536 : ℕ) : ℤ) :=
    readUint32BE_fixed16 (trakBoxV0 w1 h1 ++ trakBoxV0 w2 h2) 76 w1 hw1 rfl rfl rfl rfl
  have hHr : readUint32BE (trakBoxV0 w1 h1 ++ trakBoxV0 w2 h2) 80 = ((h1 * 65536 : ℕ) : ℤ) :=
    readUint32BE_fixed16 (trakBoxV0 w1 h1 ++ trakBoxV0 w2 h2) 80 h1 hh1 rfl rfl rfl rfl
  rw [hs0]
  simp only [parseTrackAtom]
  norm_num only
  rw [parseTrackAtomGo_tkhd (trakBoxV0 w1 h1 ++ trakBoxV0 w2 h2) 92 f 8
    (by norm_num) (by rw [hs]; norm_num) rfl]
  norm_num only
  rw [hv, if_neg (by norm_num : ¬ (0 : ℕ) = 1)]
  norm_num only
  rw [hWr, hHr, jsRound_fixed w1, jsRound_fixed h1]

lemma trakPair_second_track (w1 h1 w2 h2 : ℕ) (f : ℕ)
    (hw2 : w2 < 32768) (hh2 : h2 < 32768) :
    parseTrackAtom (f + 1) (trakBoxV0 w1 h1 ++ trakBoxV0 w2 h2) (92 + 8)
      (readUint32BE (trakBoxV0 w1 h1 ++ trakBoxV0 w2 h2) 92 - 8) =
      some ⟨some (w2 : ℤ), some (h2 : ℤ)⟩ := by
  have hs0 : readUint32BE (trakBoxV0 w1 h1 ++ trakBoxV0 w2 h2) 92 = 92 := by
    rw [readUint32BE_eq_of_bytes (trakBoxV0 w1 h1 ++ trakBoxV0 w2 h2) 92 0 0 0 92 rfl rfl rfl rfl]
    decide
  have hs : readUint32BE (trakBoxV0 w1 h1 ++ trakBoxV0 w2 h2) 100 = 84 := by
    rw [readUint32BE_eq_of_bytes (trakBoxV0 w1 h1 ++ trakBoxV0 w2 h2) 100 0 0 0 84 rfl rfl rfl rfl]
    decide
  have hv : byteAt (trakBoxV0 w1 h1 ++ trakBoxV0 w2 h2) 108 = 0 := rfl
  have hWr : readUint32BE (trakBoxV0 w1 h1 ++ trakBoxV0 w2 h2) 168 = ((w2 * 65536 : ℕ) : ℤ) :=
    readUint32BE_fixed16 (trakBoxV0 w1 h1 ++ trakBoxV0 w2 h2) 168 w2 hw2 rfl rfl rfl rfl
  have hHr : readUint32BE (trakBoxV0 w1 h1 ++ trakBoxV0 w2 h2) 172 = ((h2 * 65536 : ℕ) : ℤ) :=
    readUint32BE_fixed16 (trakBoxV0 w1 h1 ++ trakBoxV0 w2 h2) 172 h2 hh2 rfl rfl rfl rfl
  rw [hs0]
  simp only [parseTrackAtom]
  norm_num only
  rw [parseTrackAtomGo_tkhd (trakBoxV0 w1 h1 ++ trakBoxV0 w2 h2) 184 f 100
    (by norm_num) (by rw [hs]; norm_num) rfl]
  norm_num only
  rw [hv, if_neg (by norm_num : ¬ (0 : ℕ) = 1)]
  norm_num only
  rw [hWr, hHr, jsRound_fixed w2, jsRound_fixed h2]

lemma parseMoovAtom_twoTrak (w1 h1 w2 h2 : ℕ) (f : ℕ)
    (hw1 : 0 < w1) (hw1b : w1 < 32768) (hh1 : 0 < h1) (hh1b : h1 < 32768)
    (hw2 : 0 < w2) (hw2b : w2 < 32768) (hh2 : 0 < h2) (hh2b : h2 < 32768) :
    parseMoovAtom (f + 3) (trakBoxV0 w1 h1 ++ trakBoxV0 w2 h2) 0 184 =
      some ⟨none, none, some (w2 : ℤ), some (h2 : ℤ)⟩ := by
  have hs0 : readUint32BE (trakBoxV0 w1 h1 ++ trakBoxV0 w2 h2) 0 = 92 := by
    rw [readUint32BE_eq_of_bytes (trakBoxV0 w1 h1 ++ trakBoxV0 w2 h2) 0 0 0 0 92 rfl rfl rfl rfl]
    decide
  have hs92 : readUint32BE (trakBoxV0 w1 h1 ++ trakBoxV0 w2 h2) 92 = 92 := by
    rw [readUint32BE_eq_of_bytes (trakBoxV0 w1 h1 ++ trakBoxV0 w2 h2) 92 0 0 0 92 rfl rfl rfl rfl]
    decide
  simp only [parseMoovAtom]
  norm_num only
  have hfa : f + 3 = (f + 2) + 1 := rfl
  rw [hfa]
  rw [parseMoovAtomGo_trak_wh (trakBoxV0 w1 h1 ++ trakBoxV0 w2 h2) 184 (f + 2) 0 {}
    (w1 : ℤ) (h1 : ℤ) (by norm_num) (by rw [hs0]; norm_num) rfl
    (trakPair_first_track w1 h1 w2 h2 (f + 1) hw1b hh1b)
    (by omega) (by omega)]
  rw [hs0]
  norm_num only
  have hfb : f + 2 = (f + 1) + 1 := rfl
  rw [hfb]
  rw [parseMoovAtomGo_trak_wh (trakBoxV0 w1 h1 ++ trakBoxV0 w2 h2) 184 (f + 1) 92 _
    (w2 : ℤ) (h2 : ℤ) (by norm_num) (by rw [hs92]; norm_num) rfl
    (trakPair_second_track w1 h1 w2 h2 f hw2b hh2b)
    (by omega) (by omega)]
  rw [hs92]
  norm_num only
  have hfc : f + 1 = f + 1 := rfl
  rw [parseMoovAtomGo_exit (trakBoxV0 w1 h1 ++ trakBoxV0 w2 h2) 184 f 184 _ (by norm_num)]

/-- Claim C5, amended: when a moov body holds several trak boxes whose tkhd
boxes carry non-zero width and height, the walker keeps the width/height of
the LAST such trak/tkhd pair: each qualifying trak overwrites the previous
dimensions. -/
theorem moov_trak_pair_last (w1 h1 w2 h2 : ℕ) (f : ℕ)
    (hw1 : 0 < w1) (hw1b : w1 < 32768) (hh1 : 0 < h1) (hh1b : h1 < 32768)
    (hw2 : 0 < w2) (hw2b : w2 < 32768) (hh2 : 0 < h2) (hh2b : h2 < 32768) :
    parseMoovAtom (f + 3) (trakBoxV0 w1 h1 ++ trakBoxV0 w2 h2) 0 184 =
      some ⟨none, none, some (w2 : ℤ), some (h2 : ℤ)⟩ :=
  parseMoovAtom_twoTrak w1 h1 w2 h2 f hw1 hw1b hh1 hh1b hw2 hw2b hh2 hh2b

/-- Claim C5, witness: the amended theorem applied to a first trak of
1280 x 720 followed by a second trak of 640 x 480. -/
theorem moov_trak_pair_last_witness :
    parseMoovAtom 10 (trakBoxV0 1280 720 ++ trakBoxV0 640 480) 0 184 =
      some ⟨none, none, some 640, some 480⟩ :=
  moov_trak_pair_last 1280 720 640 480 7 (by norm_num) (by norm_num) (by norm_num)
    (by norm_num) (by norm_num) (by norm_num) (by norm_num) (by norm_num)

/-- Claim C5, counterexample: a `moov` body with two qualifying `trak` boxes,
the first 1280 x 720 and the second 640 x 480.  The first `trak`/`tkhd` pair
alone yields 1280 x 720, but the walker's final result carries the SECOND
pair's 640 x 480: the first qualifying pair is not kept. -/
theorem moov_first_trak_not_kept :
    parseTrackAtom 10 (trakBoxV0 1280 720 ++ trakBoxV0 640 480) 8 84 =
      some ⟨some 1280, some 720⟩ ∧
    parseMoovAtom 10 (trakBoxV0 1280 720 ++ trakBoxV0 640 480) 0 184 =
      some ⟨none, none, some 640, some 480⟩ ∧
    parseMoovAtom 10 (trakBoxV0 1280 720 ++ trakBoxV0 640 480) 0 184 ≠
      some ⟨none, none, some 1280, some 720⟩ := by
  have hs0 : readUint32BE (trakBoxV0 1280 720 ++ trakBoxV0 640 480) 0 = 92 := by
    rw [readUint32BE_eq_of_bytes (trakBoxV0 1280 720 ++ trakBoxV0 640 480) 0 0 0 0 92 rfl rfl rfl rfl]
    decide
  have h1 := trakPair_first_track 1280 720 640 480 9 (by norm_num) (by norm_num)
  rw [hs0] at h1
  norm_num at h1
  have h2 := parseMoovAtom_twoTrak 1280 720 640 480 7 (by norm_num) (by norm_num)
    (by norm_num) (by norm_num) (by norm_num) (by norm_num) (by norm_num) (by norm_num)
  norm_num at h2
  refine ⟨h1, h2, ?_⟩
  rw [h2]
  decide

lemma aspect_1920 : getAspectRatioDisplay (1920 / 1080) = "16:9" := by
  unfold getAspectRatioDisplay commonRatios
  rw [List.find?_cons_of_pos _ (by norm_num [abs])]

lemma aspect_640 : getAspectRatioDisplay (640 / 480) = "4:3" := by
  unfold getAspectRatioDisplay commonRatios
  rw [List.find?_cons_of_neg _ (by norm_num [abs]), List.find?_cons_of_pos _ (by norm_num [abs])]

lemma aspect_177 : getAspectRatioDisplay (177 / 100) = "16:9" := by
  unfold getAspectRatioDisplay commonRatios
  rw [List.find?_cons_of_pos _ (by norm_num [abs])]

lemma aspect_921 : getAspectRatioDisplay (9 / 21) = "" := by
  unfold getAspectRatioDisplay commonRatios
  rw [List.find?_cons_of_neg _ (by norm_num [abs]), List.find?_cons_of_neg _ (by norm_num [abs]),
      List.find?_cons_of_neg _ (by norm_num [abs]), List.find?_cons_of_neg _ (by norm_num [abs]),
      List.find?_cons_of_neg _ (by norm_num [abs]), List.find?_cons_of_neg _ (by norm_num [abs]),
      List.find?_cons_of_neg _ (by norm_num [abs]), List.find?_cons_of_neg _ (by norm_num [abs]),
      List.find?_nil]

lemma aspect_none_of_far (q : ℚ) (h : ∀ r ∈ commonRatios, 1 / 100 ≤ |q - r.1|) :
    getAspectRatioDisplay q = "" := by
  unfold getAspectRatioDisplay
  rw [List.find?_eq_none.mpr]
  intro p hp
  simp only [decide_eq_true_eq, not_lt]
  exact h p hp

lemma aspect_label_sound (q : ℚ) (s : String) (hs : getAspectRatioDisplay q = s)
    (hne : s ≠ "") : ∃ p ∈ commonRatios, |q - p.1| < 1 / 100 ∧ s = p.2 := by
  unfold getAspectRatioDisplay at hs
  rcases hf : commonRatios.find? (fun p => decide (|q - p.1| < 1 / 100)) with _ | p
  · rw [hf] at hs
    exact absurd hs.symm hne
  · rw [hf] at hs
    refine ⟨p, List.mem_of_find?_eq_some hf, ?_, hs.symm⟩
    have := List.find?_some hf
    simpa using this

/-- Claim C10, counterexample: an aspect ratio of exactly 1.77 does NOT
return no label: `|1.77 - 16/9| = 7/900 < 1/100`, so the labeler returns
"16:9".  Also, the table does not contain the inverse of 21:9: the ratio
9/21 itself gets no label. -/
theorem aspect_ratio_177_labeled :
    getAspectRatioDisplay (177 / 100) = "16:9" ∧
    getAspectRatioDisplay (177 / 100) ≠ "" ∧
    getAspectRatioDisplay (9 / 21) = "" := by
  refine ⟨aspect_177, ?_, aspect_921⟩
  rw [aspect_177]
  decide

/-- Claim C10, amended: the labeler matches its input against the fixed
table 16:9, 4:3, 3:2, 21:9, 1:1, 9:16, 3:4, 2:3 (the inverses of the first
three; 21:9 has no inverse entry) within an absolute tolerance of 0.01,
returning the first matching label or none; 1920 x 1080 yields "16:9",
640 x 480 yields "4:3", and an aspect ratio of exactly 1.77 yields "16:9"
(it is within 0.01 of 16/9); only ratios at distance at least 0.01 from
every table entry return no label, and every returned label comes from a
table entry within 0.01. -/
theorem aspect_ratio_label_table :
    getAspectRatioDisplay (1920 / 1080) = "16:9" ∧
    getAspectRatioDisplay (640 / 480) = "4:3" ∧
    getAspectRatioDisplay (177 / 100) = "16:9" ∧
    (∀ q : ℚ, (∀ r ∈ commonRatios, 1 / 100 ≤ |q - r.1|) → getAspectRatioDisplay q = "") ∧
    (∀ q : ℚ, ∀ s : String, getAspectRatioDisplay q = s → s ≠ "" →
      ∃ p ∈ commonRatios, |q - p.1| < 1 / 100 ∧ s = p.2) :=
  ⟨aspect_1920, aspect_640, aspect_177, aspect_none_of_far, aspect_label_sound⟩

/-- Claim C10, witness: the amended theorem's off-table part applied at
aspect ratio 5, which is at distance at least 0.01 from every table entry. -/
theorem aspect_ratio_label_table_witness : getAspectRatioDisplay 5 = "" :=
  aspect_ratio_label_table.2.2.2.1 5 (by
    intro r hr
    fin_cases hr <;> norm_num [abs])

lemma readString_slice12_0 (file : List ℕ) :
    readString (jsSlice file 0 12) 0 4 = readString file 0 4 := by
  unfold readString jsSlice jsSliceFrom
  norm_num [Int.toNat_ofNat]
  rw [List.take_take]
  congr 1
  omega

lemma readString_slice12_8 (file : List ℕ) :
    readString (jsSlice file 0 12) 8 4 = readString file 8 4 := by
  unfold readString jsSlice jsSliceFrom
  norm_num [Int.toNat_ofNat]
  rw [List.take_take]
  congr 1
  · omega
  · congr 1
    omega

/-- A 16-byte RIFF file whose form type is "WAVE", not "AVI ". -/
def wavFile : List ℕ := [82, 73, 70, 70, 0, 0, 0, 0, 87, 65, 86, 69, 0, 0, 0, 0]

/-- Claim C7: the dispatcher reads the first 12 bytes; it runs the AVI
walker on the whole file exactly when bytes 0-3 spell "RIFF" and bytes 8-11
spell "AVI ", and the MP4/MOV walker in every other case — in particular a
RIFF file whose form type is "WAVE" goes to the MP4/MOV walker. -/
theorem container_format_dispatch (fuel : ℕ) (file : List ℕ) :
    (getVideoMetadataFromBinary fuel file =
      if readString file 0 4 = riffStr ∧ readString file 8 4 = aviStr
      then parseAVIMetadata fuel file else parseMP4Metadata fuel file) ∧
    getVideoMetadataFromBinary fuel wavFile = parseMP4Metadata fuel wavFile := by
  constructor
  · simp only [getVideoMetadataFromBinary, readString_slice12_0, readString_slice12_8]
  · simp only [getVideoMetadataFromBinary]
    rw [if_neg (by decide)]

lemma parseAVIMetadataGo_hdrl_set (data : List ℕ) (fuel : ℕ) (offset : ℤ) (acc : AVIAcc)
    (W H : ℤ) (FR : ℚ) (TF : ℤ) (h1 : offset < (data.length : ℤ) - 8)
    (h2 : readString data offset 4 = listStr)
    (h3 : readString data (offset + 8) 4 = hdrlStr)
    (h4 : parseAVIHeaderList fuel data (offset + 12) (readUint32LE data (offset + 4) - 4) =
      some ⟨some W, some H, some FR, some TF⟩)
    (h5 : W ≠ 0) (h6 : H ≠ 0) (h7 : FR ≠ 0) (h8 : TF ≠ 0) :
    parseAVIMetadataGo data (fuel + 1) offset acc =
      parseAVIMetadataGo data fuel
        (offset + 8 + readUint32LE data (offset + 4) +
          (if (readUint32LE data (offset + 4)).tmod 2 = 1 then 1 else 0))
        ⟨W, H, FR, TF⟩ := by
  rw [parseAVIMetadataGo_hdrl data fuel offset acc ⟨some W, some H, some FR, some TF⟩ h1 h2 h3 h4]
  congr 1
  simp [optTruthy, optTruthyQ, h5, h6, h7, h8]

lemma parseAVIHeaderList_aviFile (msf tf w h : ℕ) (f : ℕ)
    (hmsf : 0 < msf) (hmsfb : msf < 2147483648) (htfb : tf < 2147483648)
    (hwb : w < 2147483648) (hhb : h < 2147483648) :
    parseAVIHeaderList (f + 2) (aviFile msf tf w h) (12 + 12)
      (readUint32LE (aviFile msf tf w h) (12 + 4) - 4) =
      some ⟨some (w : ℤ), some (h : ℤ),
            some ((1000000 : ℚ) / ((msf : ℤ) : ℚ)), some (tf : ℤ)⟩ := by
  have hs16 : readUint32LE (aviFile msf tf w h) 16 = 68 := by
    rw [readUint32LE_eq_of_bytes (aviFile msf tf w h) 16 68 0 0 0 rfl rfl rfl rfl]
    decide
  have hs28 : readUint32LE (aviFile msf tf w h) 28 = 56 := by
    rw [readUint32LE_eq_of_bytes (aviFile msf tf w h) 28 56 0 0 0 rfl rfl rfl rfl]
    decide
  have hm : readUint32LE (aviFile msf tf w h) 32 = (msf : ℤ) :=
    readUint32LE_eq_of_digits (aviFile msf tf w h) 32 msf hmsfb rfl rfl rfl rfl
  have htfr : readUint32LE (aviFile msf tf w h) 40 = (tf : ℤ) :=
    readUint32LE_eq_of_digits (aviFile msf tf w h) 40 tf htfb rfl rfl rfl rfl
  have hwr : readUint32LE (aviFile msf tf w h) 56 = (w : ℤ) :=
    readUint32LE_eq_of_digits (aviFile msf tf w h) 56 w hwb rfl rfl rfl rfl
  have hhr : readUint32LE (aviFile msf tf w h) 60 = (h : ℤ) :=
    readUint32LE_eq_of_digits (aviFile msf tf w h) 60 h hhb rfl rfl rfl rfl
  norm_num only
  rw [hs16]
  simp only [parseAVIHeaderList]
  norm_num only
  have hf2 : f + 2 = (f + 1) + 1 := rfl
  rw [hf2]
  rw [parseAVIHeaderListGo_avih (aviFile msf tf w h) 88 (f + 1) 24 {} (by norm_num) rfl]
  norm_num only
  rw [hs28, hm, htfr, hwr, hhr]
  rw [if_pos (show (0 : ℤ) < (msf : ℤ) by omega)]
  rw [show (if ((56 : ℤ)).tmod 2 = 1 then (1 : ℤ) else 0) = 0 from by decide]
  norm_num only
  rw [parseAVIHeaderListGo_exit (aviFile msf tf w h) 88 f 88 _ (by norm_num)]

lemma parseAVIMetadata_aviFile (msf tf w h : ℕ) (f : ℕ)
    (hmsf : 0 < msf) (hmsfb : msf < 2147483648)
    (htf : 0 < tf) (htfb : tf < 2147483648)
    (hw : 0 < w) (hwb : w < 2147483648)
    (hh : 0 < h) (hhb : h < 2147483648) :
    parseAVIMetadata (f + 3) (aviFile msf tf w h) =
      some (Except.ok ⟨((tf : ℤ) : ℚ) / ((1000000 : ℚ) / ((msf : ℤ) : ℚ)),
        (w : ℤ), (h : ℤ), ((w : ℤ) : ℚ) / ((h : ℤ) : ℚ), 88⟩) := by
  have hlen : (aviFile msf tf w h).length = 88 := rfl
  have hs16 : readUint32LE (aviFile msf tf w h) 16 = 68 := by
    rw [readUint32LE_eq_of_bytes (aviFile msf tf w h) 16 68 0 0 0 rfl rfl rfl rfl]
    decide
  have hh3 : readString (aviFile msf tf w h) (12 + 8) 4 = hdrlStr := rfl
  have hmq : (0 : ℚ) < ((msf : ℤ) : ℚ) := by exact_mod_cast hmsf
  have hfr : (0 : ℚ) < (1000000 : ℚ) / ((msf : ℤ) : ℚ) := div_pos (by norm_num) hmq
  have htq : (0 : ℚ) < ((tf : ℤ) : ℚ) := by exact_mod_cast htf
  have hslice : jsSlice (aviFile msf tf w h) 0 (min 65536 ((aviFile msf tf w h).length : ℤ)) =
      aviFile msf tf w h := jsSlice_all _ _ (by rw [hlen]; norm_num)
  have hgo : parseAVIMetadataGo
      (jsSlice (aviFile msf tf w h) 0 (min 65536 ((aviFile msf tf w h).length : ℤ)))
      (f + 3) 12 ⟨0, 0, 0, 0⟩ =
      some ⟨(w : ℤ), (h : ℤ), (1000000 : ℚ) / ((msf : ℤ) : ℚ), (tf : ℤ)⟩ := by
    rw [hslice]
    rw [show f + 3 = (f + 2) + 1 from rfl]
    rw [parseAVIMetadataGo_hdrl_set (aviFile msf tf w h) (f + 2) 12 ⟨0, 0, 0, 0⟩
      (w : ℤ) (h : ℤ) ((1000000 : ℚ) / ((msf : ℤ) : ℚ)) (tf : ℤ)
      (by rw [hlen]; norm_num) rfl hh3
      (parseAVIHeaderList_aviFile msf tf w h f hmsf hmsfb htfb hwb hhb)
      (by omega) (by omega) (ne_of_gt hfr) (by omega)]
    norm_num only
    rw [hs16]
    rw [show (if ((68 : ℤ)).tmod 2 = 1 then (1 : ℤ) else 0) = 0 from by decide]
    norm_num only
    rw [show f + 2 = (f + 1) + 1 from rfl]
    rw [parseAVIMetadataGo_exit (aviFile msf tf w h) (f + 1) 88 _ (by rw [hlen]; norm_num)]
  rw [parseAVIMetadata_eq_go (f + 3) (aviFile msf tf w h) _ hgo]
  rw [aviPost_ok (w : ℤ) (h : ℤ) ((1000000 : ℚ) / ((msf : ℤ) : ℚ)) (tf : ℤ)
    (aviFile msf tf w h).length (by omega) hfr (by omega) (by omega)]
  rw [hlen]

lemma parseAVIMetadata_aviPadFile :
    parseAVIMetadata 5 aviPadFile =
      some (Except.ok ⟨10, 640, 480, 4 / 3, 98⟩) := by
  have hlen : aviPadFile.length = 98 := rfl
  have hs16 : readUint32LE aviPadFile 16 = 78 := by
    rw [readUint32LE_eq_of_bytes aviPadFile 16 78 0 0 0 rfl rfl rfl rfl]
    decide
  have hs28 : readUint32LE aviPadFile 28 = 1 := by
    rw [readUint32LE_eq_of_bytes aviPadFile 28 1 0 0 0 rfl rfl rfl rfl]
    decide
  have hs38 : readUint32LE aviPadFile 38 = 56 := by
    rw [readUint32LE_eq_of_bytes aviPadFile 38 56 0 0 0 rfl rfl rfl rfl]
    decide
  have hm : readUint32LE aviPadFile 42 = 40000 := by
    rw [readUint32LE_eq_of_bytes aviPadFile 42 64 156 0 0 rfl rfl rfl rfl]
    decide
  have htfr : readUint32LE aviPadFile 50 = 250 := by
    rw [readUint32LE_eq_of_bytes aviPadFile 50 250 0 0 0 rfl rfl rfl rfl]
    decide
  have hwr : readUint32LE aviPadFile 66 = 640 := by
    rw [readUint32LE_eq_of_bytes aviPadFile 66 128 2 0 0 rfl rfl rfl rfl]
    decide
  have hhr : readUint32LE aviPadFile 70 = 480 := by
    rw [readUint32LE_eq_of_bytes aviPadFile 70 224 1 0 0 rfl rfl rfl rfl]
    decide
  have hh3 : readString aviPadFile (12 + 8) 4 = hdrlStr := rfl
  have hinner : parseAVIHeaderList 4 aviPadFile (12 + 12)
      (readUint32LE aviPadFile (12 + 4) - 4) =
      some ⟨some 640, some 480, some 25, some 250⟩ := by
    norm_num only
    rw [hs16]
    simp only [parseAVIHeaderList]
    norm_num only
    rw [show (4 : ℕ) = 3 + 1 from rfl]
    rw [parseAVIHeaderListGo_other aviPadFile 98 3 24 {} (by norm_num) (by decide)]
    norm_num only
    rw [hs28]
    rw [show (if ((1 : ℤ)).tmod 2 = 1 then (1 : ℤ) else 0) = 1 from by decide]
    norm_num only
    rw [show (3 : ℕ) = 2 + 1 from rfl]
    rw [parseAVIHeaderListGo_avih aviPadFile 98 2 34 {} (by norm_num) rfl]
    norm_num only
    rw [hs38, hm, htfr, hwr, hhr]
    rw [if_pos (show (0 : ℤ) < (40000 : ℤ) by norm_num)]
    rw [show (1000000 : ℚ) / ((40000 : ℤ) : ℚ) = 25 from by norm_num]
    rw [show (if ((56 : ℤ)).tmod 2 = 1 then (1 : ℤ) else 0) = 0 from by decide]
    norm_num only
    rw [show (2 : ℕ) = 1 + 1 from rfl]
    rw [parseAVIHeaderListGo_exit aviPadFile 98 1 98 _ (by norm_num)]
  have hslice : jsSlice aviPadFile 0 (min 65536 (aviPadFile.length : ℤ)) = aviPadFile := by
    decide
  have hgo : parseAVIMetadataGo (jsSlice aviPadFile 0 (min 65536 (aviPadFile.length : ℤ)))
      5 12 ⟨0, 0, 0, 0⟩ = some ⟨640, 480, 25, 250⟩ := by
    rw [hslice]
    rw [show (5 : ℕ) = 4 + 1 from rfl]
    rw [parseAVIMetadataGo_hdrl_set aviPadFile 4 12 ⟨0, 0, 0, 0⟩
      640 480 25 250 (by decide) rfl hh3 hinner
      (by norm_num) (by norm_num) (by norm_num) (by norm_num)]
    norm_num only
    rw [hs16]
    rw [show (if ((78 : ℤ)).tmod 2 = 1 then (1 : ℤ) else 0) = 0 from by decide]
    norm_num only
    rw [show (4 : ℕ) = 3 + 1 from rfl]
    rw [parseAVIMetadataGo_exit aviPadFile 3 98 _ (by decide)]
  rw [parseAVIMetadata_eq_go 5 aviPadFile _ hgo]
  rw [aviPost_ok 640 480 25 250 aviPadFile.length
    (by norm_num) (by norm_num) (by norm_num) (by norm_num)]
  rw [hlen]
  norm_num

/-- Claim C6, amended: the AVI walker reads `microSecPerFrame` at avih body
offset 0, `totalFrames` at body offset 8, `width` at body offset 24 and
`height` at body offset 28 (all u32LE); `frameRate = 1000000 /
microSecPerFrame` is computed only when `microSecPerFrame` is read positive,
and the caller derives `duration = totalFrames / frameRate` only when both
are positive (otherwise it throws); chunk iteration skips one extra pad
byte after a chunk whose declared size is odd AND nonnegative — sizes whose
top bit is set are read as negative and never trigger the pad skip. -/
theorem avih_field_offsets :
    (∀ msf tf w h f : ℕ, 0 < msf → msf < 2147483648 → 0 < tf → tf < 2147483648 →
      0 < w → w < 2147483648 → 0 < h → h < 2147483648 →
      parseAVIMetadata (f + 3) (aviFile msf tf w h) =
        some (Except.ok ⟨((tf : ℤ) : ℚ) / ((1000000 : ℚ) / ((msf : ℤ) : ℚ)),
          (w : ℤ), (h : ℤ), ((w : ℤ) : ℚ) / ((h : ℤ) : ℚ), 88⟩)) ∧
    parseAVIMetadata 5 aviPadFile = some (Except.ok ⟨10, 640, 480, 4 / 3, 98⟩) ∧
    parseAVIMetadata 5 (aviFile 0 250 640 480) = some (Except.error ()) := by
  refine ⟨?_, parseAVIMetadata_aviPadFile, by decide⟩
  intro msf tf w h f hmsf hmsfb htf htfb hw hwb hh hhb
  exact parseAVIMetadata_aviFile msf tf w h f hmsf hmsfb htf htfb hw hwb hh hhb

/-- Claim C6, witness: the amended theorem applied at microSecPerFrame 40000,
250 frames, 640 x 480 — duration 250 / 25 = 10 seconds. -/
theorem avih_field_offsets_witness :
    parseAVIMetadata (0 + 3) (aviFile 40000 250 640 480) =
      some (Except.ok ⟨((250 : ℤ) : ℚ) / ((1000000 : ℚ) / ((40000 : ℤ) : ℚ)),
        ((640 : ℕ) : ℤ), ((480 : ℕ) : ℤ),
        (((640 : ℕ) : ℤ) : ℚ) / (((480 : ℕ) : ℤ) : ℚ), 88⟩) := by
  have h := avih_field_offsets.1 40000 250 640 480 0 (by norm_num) (by norm_num)
    (by norm_num) (by norm_num) (by norm_num) (by norm_num) (by norm_num) (by norm_num)
  exact_mod_cast h

/-- Claim C6, counterexample: a chunk whose declared size bytes F3 FF FF FF
are read as -13 (an odd value) is NOT followed by a pad byte: the code's
`chunkSize % 2 === 1` is false for negative sizes (JS gives -1), so the
walker continues at offset 24 + 8 - 13 = 19, where it finds an `avih`
(width 2, height 3, 5 frames).  A variant loop that pads after every odd
declared size, as the claim says, lands on offset 20 instead and finds no
`avih` at all. -/
theorem avi_odd_negative_size_no_pad :
    parseAVIHeaderListGo aviOddNegData 64 10 0 ⟨none, none, none, none⟩ =
      some ⟨some 2, some 3, none, some 5⟩ ∧
    parseAVIHeaderListGoOddPad aviOddNegData 64 10 0 ⟨none, none, none, none⟩ =
      some ⟨none, none, none, none⟩ := by
  constructor
  · decide
  · decide

/-! ### Claims C1 and C2 -/

/-- Claim C1: `parseMP4Metadata` attempts exactly the head window, the tail
window, and (only for files of at most 10 MiB) the whole file, in that
order, returning the first complete result and throwing otherwise. -/
theorem mp4_window_order (fuel : ℕ) (file : List ℕ) :
    parseMP4Metadata fuel file =
      firstCompleteAttempt fuel file (mp4Windows file.length) := by
  have hmax : max 0 ((file.length : ℤ) - min 1048576 (file.length : ℤ)) =
      (file.length : ℤ) - min 1048576 (file.length : ℤ) := by omega
  unfold parseMP4Metadata mp4Windows
  dsimp only
  rw [hmax]
  by_cases h10 : (file.length : ℤ) ≤ 10485760
  · simp only [if_pos h10, List.cons_append, List.nil_append, firstCompleteAttempt]
  · simp only [if_neg h10, List.cons_append, List.nil_append, firstCompleteAttempt]

lemma isCompleteMetadata_spec (m : VideoMetadata) :
    isCompleteMetadata m = true ↔ 0 < m.duration ∧ 0 < m.width ∧ 0 < m.height := by
  unfold isCompleteMetadata
  simp [and_assoc]

lemma aviPost_ok_shape (acc : AVIAcc) (len : ℕ) (m : VideoMetadata)
    (h : aviPost acc len = Except.ok m) :
    0 < m.duration ∧ 0 < m.width ∧ 0 < m.height ∧
      m.aspectRatio = (m.width : ℚ) / (m.height : ℚ) ∧ m.fileSize = len := by
  unfold aviPost at h
  dsimp only at h
  split at h
  · split at h
    · rename_i hg
      rw [Except.ok.injEq] at h
      subst h
      exact ⟨hg.1, hg.2.1, hg.2.2, rfl, rfl⟩
    · exact Except.noConfusion h
  · split at h
    · rename_i hg
      rw [Except.ok.injEq] at h
      subst h
      exact ⟨hg.1, hg.2.1, hg.2.2, rfl, rfl⟩
    · exact Except.noConfusion h

lemma mp4Post_shape (mi : MoovInfo) (len : ℕ) :
    (mp4Post mi len).fileSize = len ∧
    (0 < (mp4Post mi len).width → 0 < (mp4Post mi len).height →
      (mp4Post mi len).aspectRatio =
        ((mp4Post mi len).width : ℚ) / ((mp4Post mi len).height : ℚ)) := by
  unfold mp4Post
  dsimp only
  refine ⟨rfl, fun hw hh => ?_⟩
  rw [if_pos ⟨hw, hh⟩]

lemma tryParseMP4Chunk_shape (fuel : ℕ) (file : List ℕ) (s z : ℤ) (r : VideoMetadata)
    (h : tryParseMP4Chunk fuel file s z = some r) :
    r.fileSize = file.length ∧
    (0 < r.width → 0 < r.height → r.aspectRatio = (r.width : ℚ) / (r.height : ℚ)) := by
  unfold tryParseMP4Chunk at h
  dsimp only at h
  split at h
  · exact Option.noConfusion h
  · rename_i mi heq
    rw [Option.some.injEq] at h
    subst h
    exact mp4Post_shape mi file.length

lemma attempt_ok_shape (fuel : ℕ) (file : List ℕ) (s z : ℤ) (r : VideoMetadata)
    (heq : tryParseMP4Chunk fuel file s z = some r)
    (hc : isCompleteMetadata r = true) :
    0 < r.duration ∧ 0 < r.width ∧ 0 < r.height ∧
      r.aspectRatio = (r.width : ℚ) / (r.height : ℚ) ∧ r.fileSize = file.length := by
  obtain ⟨h1, h2, h3⟩ := (isCompleteMetadata_spec r).mp hc
  obtain ⟨hfs, hasp⟩ := tryParseMP4Chunk_shape fuel file s z r heq
  exact ⟨h1, h2, h3, hasp h2 h3, hfs⟩

lemma parseMP4Metadata_ok (fuel : ℕ) (file : List ℕ) (m : VideoMetadata)
    (h : parseMP4Metadata fuel file = some (Except.ok m)) :
    0 < m.duration ∧ 0 < m.width ∧ 0 < m.height ∧
      m.aspectRatio = (m.width : ℚ) / (m.height : ℚ) ∧ m.fileSize = file.length := by
  unfold parseMP4Metadata at h
  dsimp only at h
  split at h
  · exact Option.noConfusion h
  · rename_i r1 heq1
    split at h
    · rename_i hc1
      rw [Option.some.injEq, Except.ok.injEq] at h
      subst h
      exact attempt_ok_shape fuel file _ _ r1 heq1 hc1
    · split at h
      · exact Option.noConfusion h
      · rename_i r2 heq2
        split at h
        · rename_i hc2
          rw [Option.some.injEq, Except.ok.injEq] at h
          subst h
          exact attempt_ok_shape fuel file _ _ r2 heq2 hc2
        · split at h
          · split at h
            · exact Option.noConfusion h
            · rename_i r3 heq3
              split at h
              · rename_i hc3
                rw [Option.some.injEq, Except.ok.injEq] at h
                subst h
                exact attempt_ok_shape fuel file _ _ r3 heq3 hc3
              · rw [Option.some.injEq] at h
                exact Except.noConfusion h
          · rw [Option.some.injEq] at h
            exact Except.noConfusion h

lemma parseAVIMetadata_ok (fuel : ℕ) (file : List ℕ) (m : VideoMetadata)
    (h : parseAVIMetadata fuel file = some (Except.ok m)) :
    0 < m.duration ∧ 0 < m.width ∧ 0 < m.height ∧
      m.aspectRatio = (m.width : ℚ) / (m.height : ℚ) ∧ m.fileSize = file.length := by
  unfold parseAVIMetadata at h
  dsimp only at h
  split at h
  · exact Option.noConfusion h
  · rename_i acc heq
    rw [Option.some.injEq] at h
    exact aviPost_ok_shape acc file.length m h

lemma getVideoMetadataFromBinary_ok (fuel : ℕ) (file : List ℕ) (m : VideoMetadata)
    (h : getVideoMetadataFromBinary fuel file = some (Except.ok m)) :
    0 < m.duration ∧ 0 < m.width ∧ 0 < m.height ∧
      m.aspectRatio = (m.width : ℚ) / (m.height : ℚ) ∧ m.fileSize = file.length := by
  unfold getVideoMetadataFromBinary at h
  dsimp only at h
  split at h
  · exact parseAVIMetadata_ok fuel file m h
  · exact parseMP4Metadata_ok fuel file m h

lemma jsToInt32_emod (n : ℕ) :
    jsToInt32 n = ((n : ℤ) + 2147483648) % 4294967296 - 2147483648 := by
  unfold jsToInt32
  split <;> omega

lemma tryGo_small (data : List ℕ) (hlen : data.length < 12) (f : ℕ) :
    tryParseMP4ChunkGo data (f + 3) 0 = some {} := by
  by_cases hcond : (0 : ℤ) < (data.length : ℤ) - 8
  case neg => exact tryParseMP4ChunkGo_exit data (f + 2) 0 hcond
  case pos =>
  by_cases hbr : readUint32BE data 0 = 0 ∨ readUint32BE data 0 > (data.length : ℤ) - 0
  · exact tryParseMP4ChunkGo_break data (f + 2) 0 hcond hbr
  · push_neg at hbr
    obtain ⟨hs0, hsle⟩ := hbr
    rw [show f + 3 = (f + 2) + 1 from rfl]
    by_cases hmoov : readString data (0 + 4) 4 = moovStr
    · rw [tryParseMP4ChunkGo_moov data (f + 2) 0 hcond (by push_neg; exact ⟨hs0, hsle⟩) hmoov]
      unfold parseMoovAtom
      exact parseMoovAtomGo_exit data _ (f + 1) (0 + 8) {} (by omega)
    · rw [tryParseMP4ChunkGo_next data (f + 2) 0 hcond (by push_neg; exact ⟨hs0, hsle⟩) hmoov]
      by_cases hexit : ¬ (0 + readUint32BE data 0 < (data.length : ℤ) - 8)
      · exact tryParseMP4ChunkGo_exit data (f + 1) _ hexit
      · push_neg at hexit
        have hub := u32be_lt data 0
        have hrel : readUint32BE data 0 =
            ((u32be data 0 : ℤ) + 2147483648) % 4294967296 - 2147483648 := jsToInt32_emod _
        have hu : u32be data 0 = byteAt data 0 * 16777216 + byteAt data 1 * 65536 +
            byteAt data 2 * 256 + byteAt data 3 := by norm_num [u32be]
        have hb0 := byteAt_lt data 0
        have hb1 := byteAt_lt data 1
        have hb2 := byteAt_lt data 2
        have hb3 := byteAt_lt data 3
        have hb4 := byteAt_lt data 4
        have hb5 := byteAt_lt data 5
        by_cases hneg4 : readUint32BE data 0 ≤ -4
        · have hz : u32be data (0 + readUint32BE data 0) = 0 := by
            unfold u32be
            rw [byteAt_neg data _ (by omega), byteAt_neg data _ (by omega),
              byteAt_neg data _ (by omega), byteAt_neg data _ (by omega)]
          apply tryParseMP4ChunkGo_break data (f + 1) _ hexit
          left
          have hveq : readUint32BE data (0 + readUint32BE data 0) =
              jsToInt32 (u32be data (0 + readUint32BE data 0)) := rfl
          rw [hveq, hz]
          decide
        · have hcases : readUint32BE data 0 = -3 ∨ readUint32BE data 0 = -2 ∨
              readUint32BE data 0 = -1 ∨ readUint32BE data 0 = 1 ∨
              readUint32BE data 0 = 2 := by omega
          rcases hcases with h | h | h | h | h
          · -- size -3: bytes FF FF FF FD; the next read at offset -3 sees
            -- [0, 0, 0, data[0]] = 255 > len + 3
            have e0 : byteAt data 0 = 255 := by omega
            have hun : u32be data (-3) = byteAt data (-3) * 16777216 +
                byteAt data (-2) * 65536 + byteAt data (-1) * 256 + byteAt data 0 := by
              norm_num [u32be]
            have hz1 : byteAt data (-3) = 0 := byteAt_neg data _ (by norm_num)
            have hz2 : byteAt data (-2) = 0 := byteAt_neg data _ (by norm_num)
            have hz3 : byteAt data (-1) = 0 := byteAt_neg data _ (by norm_num)
            have hv : readUint32BE data (-3) = (u32be data (-3) : ℤ) :=
              readUint32BE_of_lt data (-3) (by omega)
            rw [h] at hexit ⊢
            norm_num only at hexit ⊢
            apply tryParseMP4ChunkGo_break data (f + 1) (-3) (by omega)
            right
            rw [hv]
            omega
          · -- size -2: bytes FF FF FF FE; next read at -2 sees 255*256+255
            have e0 : byteAt data 0 = 255 := by omega
            have e1 : byteAt data 1 = 255 := by omega
            have hun : u32be data (-2) = byteAt data (-2) * 16777216 +
                byteAt data (-1) * 65536 + byteAt data 0 * 256 + byteAt data 1 := by
              norm_num [u32be]
            have hz1 : byteAt data (-2) = 0 := byteAt_neg data _ (by norm_num)
            have hz2 : byteAt data (-1) = 0 := byteAt_neg data _ (by norm_num)
            have hv : readUint32BE data (-2) = (u32be data (-2) : ℤ) :=
              readUint32BE_of_lt data (-2) (by omega)
            rw [h] at hexit ⊢
            norm_num only at hexit ⊢
            apply tryParseMP4ChunkGo_break data (f + 1) (-2) (by omega)
            right
            rw [hv]
            omega
          · -- size -1: bytes FF FF FF FF; next read at -1 sees 255*65536+255*256+255
            have e0 : byteAt data 0 = 255 := by omega
            have e1 : byteAt data 1 = 255 := by omega
            have e2 : byteAt data 2 = 255 := by omega
            have hun : u32be data (-1) = byteAt data (-1) * 16777216 +
                byteAt data 0 * 65536 + byteAt data 1 * 256 + byteAt data 2 := by
              norm_num [u32be]
            have hz1 : byteAt data (-1) = 0 := byteAt_neg data _ (by norm_num)
            have hv : readUint32BE data (-1) = (u32be data (-1) : ℤ) :=
              readUint32BE_of_lt data (-1) (by omega)
            rw [h] at hexit ⊢
            norm_num only at hexit ⊢
            apply tryParseMP4ChunkGo_break data (f + 1) (-1) (by omega)
            right
            rw [hv]
            omega
          · -- size 1: bytes 00 00 00 01; next read at 1 sees 256 + data[4] > len - 1
            have e1 : byteAt data 1 = 0 := by omega
            have e2 : byteAt data 2 = 0 := by omega
            have e3 : byteAt data 3 = 1 := by omega
            have hun : u32be data 1 = byteAt data 1 * 16777216 +
                byteAt data 2 * 65536 + byteAt data 3 * 256 + byteAt data 4 := by
              norm_num [u32be]
            have hv : readUint32BE data 1 = (u32be data 1 : ℤ) :=
              readUint32BE_of_lt data 1 (by omega)
            rw [h] at hexit ⊢
            norm_num only at hexit ⊢
            apply tryParseMP4ChunkGo_break data (f + 1) 1 (by omega)
            right
            rw [hv]
            omega
          · -- size 2: bytes 00 00 00 02; next read at 2 sees 2*65536 + ... > len - 2
            have e2 : byteAt data 2 = 0 := by omega
            have e3 : byteAt data 3 = 2 := by omega
            have hun : u32be data 2 = byteAt data 2 * 16777216 +
                byteAt data 3 * 65536 + byteAt data 4 * 256 + byteAt data 5 := by
              norm_num [u32be]
            have hv : readUint32BE data 2 = (u32be data 2 : ℤ) :=
              readUint32BE_of_lt data 2 (by omega)
            rw [h] at hexit ⊢
            norm_num only at hexit ⊢
            apply tryParseMP4ChunkGo_break data (f + 1) 2 (by omega)
            right
            rw [hv]
            omega

lemma isComplete_empty (len : ℕ) : isCompleteMetadata ⟨0, 0, 0, 0, len⟩ = false := by
  unfold isCompleteMetadata
  norm_num

lemma parseMP4Metadata_small (file : List ℕ) (hlen : file.length < 12) (f : ℕ) :
    parseMP4Metadata (f + 3) file = some (Except.error ()) := by
  have h1 : tryParseMP4Chunk (f + 3) file 0 (min 524288 (file.length : ℤ)) =
      some (mp4Post {} file.length) := by
    apply tryParseMP4Chunk_eq_go
    rw [jsSlice_all file _ (by omega)]
    exact tryGo_small file hlen f
  have h2 : tryParseMP4Chunk (f + 3) file
      (max 0 ((file.length : ℤ) - min 1048576 (file.length : ℤ)))
      (min 1048576 (file.length : ℤ)) = some (mp4Post {} file.length) := by
    rw [show max 0 ((file.length : ℤ) - min 1048576 (file.length : ℤ)) = 0 from by omega]
    apply tryParseMP4Chunk_eq_go
    rw [jsSlice_all file _ (by omega)]
    exact tryGo_small file hlen f
  have h3 : tryParseMP4Chunk (f + 3) file 0 ((file.length : ℕ) : ℤ) =
      some (mp4Post {} file.length) := by
    apply tryParseMP4Chunk_eq_go
    rw [jsSlice_all file _ (by omega)]
    exact tryGo_small file hlen f
  unfold parseMP4Metadata
  dsimp only
  rw [h1, mp4Post_empty]
  dsimp only
  rw [isComplete_empty]
  simp only [Bool.false_eq_true, if_false]
  rw [h2, mp4Post_empty]
  dsimp only
  rw [isComplete_empty]
  simp only [Bool.false_eq_true, if_false]
  rw [if_pos (show ((file.length : ℕ) : ℤ) ≤ 10485760 from by omega)]
  rw [h3, mp4Post_empty]
  dsimp only
  rw [isComplete_empty]
  simp only [Bool.false_eq_true, if_false]

lemma readString_8_4_length (file : List ℕ) :
    (readString file 8 4).length = min 12 file.length - min 8 file.length := by
  unfold readString jsSlice jsSliceFrom
  norm_num [Int.toNat_ofNat]
  omega

lemma getVideoMetadataFromBinary_small (file : List ℕ) (hlen : file.length < 12) (f : ℕ) :
    getVideoMetadataFromBinary (f + 3) file = some (Except.error ()) := by
  have hne : ¬ (readString (jsSlice file 0 12) 0 4 = riffStr ∧
      readString (jsSlice file 0 12) 8 4 = aviStr) := by
    rintro ⟨-, h2⟩
    rw [readString_slice12_8] at h2
    have hl := congrArg List.length h2
    rw [readString_8_4_length] at hl
    have : aviStr.length = 4 := rfl
    omega
  unfold getVideoMetadataFromBinary
  dsimp only
  rw [if_neg hne]
  exact parseMP4Metadata_small file hlen f

lemma getVideoMetadataFromBinary_aviPadFile :
    getVideoMetadataFromBinary 5 aviPadFile =
      some (Except.ok ⟨10, 640, 480, 4 / 3, 98⟩) := by
  unfold getVideoMetadataFromBinary
  dsimp only
  rw [if_pos (show readString (jsSlice aviPadFile 0 12) 0 4 = riffStr ∧
      readString (jsSlice aviPadFile 0 12) 8 4 = aviStr from by decide)]
  exact parseAVIMetadata_aviPadFile

/-- Claim C2: the binary-parsing tier (`getVideoMetadataFromBinary`, MP4 and
AVI paths alike) returns a metadata record as success only if its duration,
width and height are all positive, with `aspectRatio = width / height` and
`fileSize` the whole source file's byte count; and a file of fewer than 12
bytes (in particular an empty one) never crashes and always yields the
thrown-error result, for every sufficient fuel bound. -/
theorem binary_success_complete :
    (∀ (fuel : ℕ) (file : List ℕ) (m : VideoMetadata),
      getVideoMetadataFromBinary fuel file = some (Except.ok m) →
      0 < m.duration ∧ 0 < m.width ∧ 0 < m.height ∧
        m.aspectRatio = (m.width : ℚ) / (m.height : ℚ) ∧ m.fileSize = file.length) ∧
    (∀ file : List ℕ, file.length < 12 → ∀ f : ℕ,
      getVideoMetadataFromBinary (f + 3) file = some (Except.error ())) :=
  ⟨getVideoMetadataFromBinary_ok, getVideoMetadataFromBinary_small⟩

/-- Claim C2, witness: the theorem applied to the successful AVI parse of
`aviPadFile` (10 seconds, 640 x 480, 98 bytes) and to the empty file. -/
theorem binary_success_complete_witness :
    (0 < (⟨10, 640, 480, 4 / 3, 98⟩ : VideoMetadata).duration ∧
      0 < (⟨10, 640, 480, 4 / 3, 98⟩ : VideoMetadata).width ∧
      0 < (⟨10, 640, 480, 4 / 3, 98⟩ : VideoMetadata).height ∧
      (⟨10, 640, 480, 4 / 3, 98⟩ : VideoMetadata).aspectRatio =
        ((⟨10, 640, 480, 4 / 3, 98⟩ : VideoMetadata).width : ℚ) /
          ((⟨10, 640, 480, 4 / 3, 98⟩ : VideoMetadata).height : ℚ) ∧
      (⟨10, 640, 480, 4 / 3, 98⟩ : VideoMetadata).fileSize = aviPadFile.length) ∧
    getVideoMetadataFromBinary (0 + 3) [] = some (Except.error ()) :=
  ⟨binary_success_complete.1 5 aviPadFile ⟨10, 640, 480, 4 / 3, 98⟩
      getVideoMetadataFromBinary_aviPadFile,
   binary_success_complete.2 [] (by decide) 0⟩

end Gifizer
